import Mathlib

/-! # Catch-up stream: seek arithmetic and URL templating

A shallow embedding of `src/stream/FFmpegCatchupStream.cpp`.

Modelling conventions.

* `std::string` is `Str = List Char` (one `Char` per `char`).
* `time_t`, `int64_t`, `long long` and `int` values are `Int`.  Signed overflow is
  undefined behaviour in C++ and is outside the model; the one place where the width of
  a value is observable is `snprintf("%lu", ...)`, which prints its argument as an
  unsigned 64-bit number, and there the reduction modulo `2 ^ 64` is explicit
  (LP64: `time_t = long`, 64 bits).
* A `double` is the rational number that it stands for (infinities and NaN are outside the
  model). Arithmetic on `double`s and the conversion of an integer to `double` round to the
  nearest `double`, ties to even (`roundDouble`); `static_cast<int64_t>` truncates towards
  zero and yields `INT64_MIN` when the value does not fit. The one conversion that is taken
  as exact is the assignment of the seek result to `m_seekOffset` in `DemuxSeekTime`, which is
  exact for every result up to `2^53` in magnitude.
* `time(0)` is read once by each of `SeekCatchupStream`, `GetUpdatedCatchupUrl` and
  `FormatDateTime`; each read is a separate argument (`timeNow`, `dateTimeNow`).
* `strftime` on `localtime` depends on the time zone of the process; it is an argument.
* C++ exceptions thrown by the standard library (`std::stoi`, `std::string::erase`,
  `std::string::replace`) are results in `Except CppException`.
* The base class `FFmpegStream` is not part of the source file; its methods are the fields of
  a record `Pipeline σ` over a state `σ` of the base class, and every method that calls the
  base class takes that record and the state as arguments.
* Logging and locking are omitted.
-/

namespace ffmpegdirect

/-- The contents of a `std::string`. -/
abbrev Str := List Char

/-- The standard-library exceptions that the code can raise. -/
inductive CppException where
  | out_of_range
  | invalid_argument
  deriving DecidableEq

/-! ## Standard library -/

/-- The C string seen through `s.c_str()`: the characters before the first NUL. -/
def c_str (s : Str) : Str :=
  s.takeWhile (fun c => c != Char.ofNat 0)

/-- The call `s.find(needle)`: the position of the first occurrence of `needle` in `s`, `none`
for `npos`. -/
def find : Str → Str → Option Nat
  | [], needle => if needle.isEmpty then some 0 else none
  | c :: t, needle =>
    if needle.isPrefixOf (c :: t) then some 0
    else (find t needle).map (fun p => p + 1)

/-- The call `s.replace(pos, len, r)` for a position `pos <= s.size()`. -/
def replace (s : Str) (pos len : Nat) (r : Str) : Str :=
  s.take pos ++ r ++ s.drop (pos + len)

/-- The call `s.replace(s.find(x), len, r)` on the result of a `find`: `npos` is larger than
the size of any string, and `replace` then throws `std::out_of_range`. -/
def replaceAt (s : Str) (pos : Option Nat) (len : Nat) (r : Str) : Except CppException Str :=
  match pos with
  | some p => .ok (replace s p len r)
  | none => .error .out_of_range

/-- The call `s.erase(s.find(x))` on the result of a `find`: everything from the position on is
removed; `npos` throws `std::out_of_range`. -/
def erase (s : Str) (pos : Option Nat) : Except CppException Str :=
  match pos with
  | some p => .ok (s.take p)
  | none => .error .out_of_range

/-- The value of a string of decimal digits. -/
def decimalValue (ds : Str) : Nat :=
  ds.foldl (fun acc c => acc * 10 + (c.toNat - 48)) 0

/-- What `snprintf(buff, sizeof(buff), "%lu", t)` writes: `t` read as an unsigned 64-bit
number, in decimal. -/
def formatLu (t : Int) : Str :=
  Nat.toDigits 10 (t % 2 ^ 64).toNat

/-- The function `std::to_string` on a signed integer. -/
def to_string (n : Int) : Str :=
  if n < 0 then '-' :: Nat.toDigits 10 n.natAbs else Nat.toDigits 10 n.toNat

/-- The predicate `std::isspace` in the C locale. -/
def isspace (c : Char) : Bool :=
  c == ' ' || (9 ≤ c.toNat && c.toNat ≤ 13)

/-- The function `std::stoi(s)` in base 10: leading white space, an optional sign, then the
longest run of digits; `std::invalid_argument` when there is no digit and
`std::out_of_range` when the value does not fit an `int`. -/
def stoi (s : Str) : Except CppException Int :=
  let s1 := s.dropWhile isspace
  let neg := s1.head? == some '-'
  let s2 := if s1.head? == some '-' || s1.head? == some '+' then s1.drop 1 else s1
  let ds := s2.takeWhile Char.isDigit
  if ds.isEmpty then .error .invalid_argument
  else
    let v : Int := if neg then -(decimalValue ds : Int) else (decimalValue ds : Int)
    if v < -2147483648 ∨ 2147483647 < v then .error .out_of_range else .ok v

/-- The least value of `int64_t`. -/
def INT64_MIN : Int := -9223372036854775808

/-- The cast `static_cast<int64_t>(x)` on a `double`: truncation towards zero when the truncated
value fits `int64_t`. When it does not fit, the conversion is undefined in C++; the x86-64
conversion instruction `cvttsd2si` that the compilers emit then yields `INT64_MIN`, and that is
the value here. -/
def static_cast_int64 (x : ℚ) : Int :=
  if INT64_MIN ≤ Int.tdiv x.num x.den ∧ Int.tdiv x.num x.den < 2 ^ 63 then Int.tdiv x.num x.den
  else INT64_MIN

/-- Rounding of the non-negative fraction `n / d` to the nearest integer, ties to even. -/
def roundHalfEven (n d : Nat) : Nat :=
  if 2 * (n % d) < d then n / d
  else if d < 2 * (n % d) then n / d + 1
  else if n / d % 2 = 0 then n / d
  else n / d + 1

/-- The scan behind `floorLog2`; the first argument bounds the number of halvings. -/
def log2Fuel : Nat → Nat → Nat
  | 0, _ => 0
  | fuel + 1, n => if n < 2 then 0 else log2Fuel fuel (n / 2) + 1

/-- The floor of the binary logarithm of `n` (0 for `n = 0`). -/
def floorLog2 (n : Nat) : Nat :=
  log2Fuel n n

/-- The exponent of the unit in the last place of the `double`s around `n / d` (for `n`, `d`
positive): `L - 52`, where `2 ^ L <= n / d < 2 ^ (L + 1)`, and `-1074` for subnormals. -/
def ulpExponent (n d : Nat) : Int :=
  let k : Int := (floorLog2 n : Int) - (floorLog2 d : Int)
  let L : Int := if d * 2 ^ k.toNat ≤ n * 2 ^ (-k).toNat then k else k - 1
  max (L - 52) (-1074)

/-- The `double` nearest to the rational `x`, ties to even. -/
def roundDouble (x : ℚ) : ℚ :=
  if x = 0 then 0
  else
    let e := ulpExponent x.num.natAbs x.den
    let m := roundHalfEven (x.num.natAbs * 2 ^ (-e).toNat) (x.den * 2 ^ e.toNat)
    let y : ℚ := ((m * 2 ^ e.toNat : Nat) : ℚ) / ((2 ^ (-e).toNat : Nat) : ℚ)
    if x < 0 then -y else y

/-- The sum `a + b` of two `double`s. -/
def double_add (a b : ℚ) : ℚ :=
  roundDouble (a + b)

/-- The difference `a - b` of two `double`s. -/
def double_sub (a b : ℚ) : ℚ :=
  roundDouble (a - b)

/-- The product `a * b` of two `double`s. -/
def double_mul (a b : ℚ) : ℚ :=
  roundDouble (a * b)

/-- The quotient `a / b` of two `double`s, `b` not zero. -/
def double_div (a b : ℚ) : ℚ :=
  roundDouble (a / b)

/-- The conversion `static_cast<double>(n)` of an integer. -/
def int64_to_double (n : Int) : ℚ :=
  roundDouble (n : ℚ)

/-! ## Regular expressions

The two regular expressions of the file are modelled at their ECMAScript semantics
(`std::regex` default grammar), specialised to the patterns that occur. -/

/-- What `.` matches: any character except a line terminator. -/
def regexAny (c : Char) : Bool :=
  c != '\n' && c != '\r'

/-- A successful `regex_match` of `.*(\{name:(\d+)\}).*`: the bounds of the two groups as
offsets into the subject. -/
structure UnitsMatch where
  g1First : Nat
  g1Second : Nat
  g2First : Nat
  g2Second : Nat
  deriving DecidableEq

/-- Matches `\{name:(\d+)\}` at the start of `t`: the length of the match. `\d+` is greedy and
a digit is never `}`, so the run of digits is the longest one. The `name` is `duration` or
`offset` and has no character that is special in a regular expression. -/
def matchUnitsGroup (name t : Str) : Option Nat :=
  let head := '{' :: name ++ [':']
  if head.isPrefixOf t then
    let ds := (t.drop head.length).takeWhile Char.isDigit
    if 0 < ds.length ∧ (t.drop (head.length + ds.length)).head? = some '}' then
      some (head.length + ds.length + 1)
    else none
  else none

/-- One alternative of the backtracking search: the first `.*` takes exactly `i` characters, the
group follows, and the last `.*` takes the whole rest of the subject. -/
def tryUnitsAt (name s : Str) (i : Nat) : Option UnitsMatch :=
  if (s.take i).all regexAny then
    match matchUnitsGroup name (s.drop i) with
    | some n =>
      if (s.drop (i + n)).all regexAny then
        some ⟨i, i + n, i + name.length + 2, i + n - 1⟩
      else none
    | none => none
  else none

/-- The first `.*` is greedy: the longest prefix is tried first, then shorter ones. -/
def greedyUnits (name s : Str) : Nat → Option UnitsMatch
  | 0 => tryUnitsAt name s 0
  | i + 1 =>
    match tryUnitsAt name s (i + 1) with
    | some r => some r
    | none => greedyUnits name s i

/-- The call `std::regex_match(s, mr, std::regex(".*(\\{" + name + ":(\\d+)\\}).*"))`. -/
def regexMatchUnits (name s : Str) : Option UnitsMatch :=
  greedyUnits name s s.length

/-- The pattern of `CATCHUP_ID_REGEX`; as a regular expression it matches exactly this text. -/
def CATCHUP_ID : Str := "{catchup-id}".toList

/-- Where the scan of a replacement string stands: in plain text, right after a dollar, or after
a dollar and one digit. -/
inductive FormatState where
  | text
  | dollar
  | digit (d : Char)

/-- The expansion of a replacement string in the default (ECMAScript) format, as libstdc++
implements `match_results::format` for a regular expression without groups: `$$` is a dollar,
`$&` the match, a dollar with a backtick the prefix, a dollar with an apostrophe the suffix,
`$0` and `$00` the match, any other `$n` or `$nn` nothing, and any other dollar stays. -/
def formatExpandFrom (m pre suf : Str) : FormatState → Str → Str
  | .text, [] => []
  | .text, c :: r =>
    if c = '$' then formatExpandFrom m pre suf .dollar r
    else c :: formatExpandFrom m pre suf .text r
  | .dollar, [] => ['$']
  | .dollar, d :: r =>
    if d = '$' then '$' :: formatExpandFrom m pre suf .text r
    else if d = '&' then m ++ formatExpandFrom m pre suf .text r
    else if d = Char.ofNat 96 then pre ++ formatExpandFrom m pre suf .text r
    else if d = Char.ofNat 39 then suf ++ formatExpandFrom m pre suf .text r
    else if d.isDigit then formatExpandFrom m pre suf (.digit d) r
    else '$' :: d :: formatExpandFrom m pre suf .text r
  | .digit d, [] => if d = '0' then m else []
  | .digit d, e :: r =>
    if e.isDigit then
      (if d = '0' ∧ e = '0' then m else []) ++ formatExpandFrom m pre suf .text r
    else if e = '$' then
      (if d = '0' then m else []) ++ formatExpandFrom m pre suf .dollar r
    else (if d = '0' then m else []) ++ e :: formatExpandFrom m pre suf .text r

/-- The call `mr.format(fmt)` for the match `m` with prefix `pre` and suffix `suf`. -/
def formatExpand (m pre suf fmt : Str) : Str :=
  formatExpandFrom m pre suf .text fmt

/-- The scan of `std::regex_replace` for a literal, non-empty pattern: `pre` is the text since
the last match, which is copied to the output; every match is replaced by the expansion of
`fmt`. The first argument bounds the number of steps. -/
def regexReplaceGo (pat fmt : Str) : Nat → Str → Str → Str
  | 0, pre, s => pre ++ s
  | fuel + 1, pre, s =>
    if pat.isPrefixOf s then
      pre ++ formatExpand pat pre (s.drop pat.length) fmt
        ++ regexReplaceGo pat fmt fuel [] (s.drop pat.length)
    else
      match s with
      | [] => pre
      | c :: t => regexReplaceGo pat fmt fuel (pre ++ [c]) t

/-- The call `std::regex_replace(s, CATCHUP_ID_REGEX, fmt)`. -/
def regex_replace (s fmt : Str) : Str :=
  regexReplaceGo CATCHUP_ID fmt (s.length + 1) [] s

/-! ## The time formatter (the unnamed namespace of the source) -/

/-- The function `FormatUnits(tTime, name, urlFormatString)`; the result is the new value of
`urlFormatString`. The subject of the match is `urlFormatString.c_str()`, and `mr.length()`
is the length of the whole match, that is of the subject. `mr[1].first` and `mr[1].second` are
`const char*`: the strings built from them run to the end of the subject, and the text of the
group is recovered by cutting the first at the first place where the second occurs in it. -/
def FormatUnits (tTime : Int) (name : Str) (urlFormatString : Str) : Except CppException Str :=
  let subject := c_str urlFormatString
  match regexMatchUnits name subject with
  | none => .ok urlFormatString
  | some mr =>
    if 3 ≤ subject.length then do
      let first1 := subject.drop mr.g1First
      let second1 := subject.drop mr.g1Second
      let timeSecondsExp ←
        if 0 < second1.length then erase first1 (find first1 second1) else pure first1
      let first2 := subject.drop mr.g2First
      let second2 := subject.drop mr.g2Second
      let dividerStr ←
        if 0 < second2.length then erase first2 (find first2 second2) else pure first2
      let divider ← stoi dividerStr
      if divider ≠ 0 then
        let units := Int.tdiv tTime divider
        let units := if units < 0 then 0 else units
        replaceAt urlFormatString (find urlFormatString timeSecondsExp) timeSecondsExp.length
          (to_string units)
      else pure urlFormatString
    else pure urlFormatString

/-- The function `FormatTime(ch, pTime, urlFormatString)`. The broken-down time `pTime` is
`localtime` of an epoch time and is represented by that epoch time; `strftime ch t` is the C
string that `std::strftime` leaves in `buff` for the format `%ch`. -/
def FormatTime (strftime : Char → Int → Str) (ch : Char) (pTime : Int)
    (urlFormatString : Str) : Str :=
  match find urlFormatString ['{', ch, '}'] with
  | some pos =>
    let buff := strftime ch pTime
    if 0 < buff.length then replace urlFormatString pos 3 buff else urlFormatString
  | none => urlFormatString

/-- The function `FormatUtc(str, tTime, urlFormatString)`. -/
def FormatUtc (str : Str) (tTime : Int) (urlFormatString : Str) : Str :=
  match find urlFormatString str with
  | some pos => replace urlFormatString pos str.length (formatLu tTime)
  | none => urlFormatString

/-- The function `FormatDateTime(dateTimeEpg, duration, urlFormatString)`; `dateTimeNow` is
the value of `std::time(0)`. -/
def FormatDateTime (strftime : Char → Int → Str) (dateTimeNow : Int)
    (dateTimeEpg duration : Int) (urlFormatString : Str) : Except CppException Str := do
  let formattedUrl := urlFormatString
  let dateTime := dateTimeEpg
  let formattedUrl := FormatTime strftime 'Y' dateTime formattedUrl
  let formattedUrl := FormatTime strftime 'm' dateTime formattedUrl
  let formattedUrl := FormatTime strftime 'd' dateTime formattedUrl
  let formattedUrl := FormatTime strftime 'H' dateTime formattedUrl
  let formattedUrl := FormatTime strftime 'M' dateTime formattedUrl
  let formattedUrl := FormatTime strftime 'S' dateTime formattedUrl
  let formattedUrl := FormatUtc "{utc}".toList dateTimeEpg formattedUrl
  let formattedUrl := FormatUtc "${start}".toList dateTimeEpg formattedUrl
  let formattedUrl := FormatUtc "{utcend}".toList (dateTimeEpg + duration) formattedUrl
  let formattedUrl := FormatUtc "${end}".toList (dateTimeEpg + duration) formattedUrl
  let formattedUrl := FormatUtc "{lutc}".toList dateTimeNow formattedUrl
  let formattedUrl := FormatUtc "${timestamp}".toList dateTimeNow formattedUrl
  let formattedUrl := FormatUtc "{duration}".toList duration formattedUrl
  let formattedUrl ← FormatUnits duration "duration".toList formattedUrl
  let formattedUrl := FormatUtc "${offset}".toList (dateTimeNow - dateTimeEpg) formattedUrl
  let formattedUrl ← FormatUnits (dateTimeNow - dateTimeEpg) "offset".toList formattedUrl
  pure formattedUrl

/-! ## The catch-up stream -/

/-- Modelled from the spec: the header that defines `DVD_TIME_BASE` is not part of the source
file; the number of presentation ticks per second is 1000000. -/
def DVD_TIME_BASE : Int := 1000000

/-- The constant `SEEK_SET` of `<cstdio>`. -/
def SEEK_SET : Int := 0

/-- The constant `SEEK_CUR` of `<cstdio>`. -/
def SEEK_CUR : Int := 1

/-- The members of `FFmpegCatchupStream`: those that the constructor initialises, the members
`m_pauseStartTime` and `m_currentDemuxTime` (the header is not part of the source file; they
are passed to and assigned from `double` values), and the members `m_streamUrl` and
`m_currentPts` of the base class that the methods of the source file read and write. -/
structure FFmpegCatchupStream where
  m_isOpeningStream : Bool := false
  m_seekOffset : ℚ := 0
  m_defaultUrl : Str
  m_playbackAsLive : Bool
  m_programmeStartTime : Int
  m_programmeEndTime : Int
  m_catchupUrlFormatString : Str
  m_catchupUrlNearLiveFormatString : Str
  m_catchupBufferStartTime : Int
  m_catchupBufferEndTime : Int
  m_catchupBufferOffset : Int
  m_timezoneShift : Int
  m_defaultProgrammeDuration : Int
  m_programmeCatchupId : Str
  m_streamUrl : Str := []
  m_pauseStartTime : ℚ := 0
  m_currentDemuxTime : ℚ := 0
  m_currentPts : ℚ := 0
  deriving DecidableEq

namespace FFmpegCatchupStream

/-- The local `offset` of `GetUpdatedCatchupUrl`: the absolute time of the playback point. -/
def offset (s : FFmpegCatchupStream) : Int :=
  s.m_catchupBufferStartTime + s.m_catchupBufferOffset

/-- The local `duration` of `GetUpdatedCatchupUrl` before the cap: the duration of the
programme when the programme is valid for the offset, the default duration otherwise. -/
def programmeDuration (s : FFmpegCatchupStream) : Int :=
  if s.m_programmeStartTime > 0 ∧ s.m_programmeStartTime < s.m_programmeEndTime ∧
      s.m_programmeStartTime ≤ s.offset ∧ s.m_programmeEndTime ≥ s.offset then
    s.m_programmeEndTime - s.m_programmeStartTime
  else s.m_defaultProgrammeDuration

/-- The local `duration` of `GetUpdatedCatchupUrl` after the cap to `timeNow`. -/
def cappedDuration (s : FFmpegCatchupStream) (timeNow : Int) : Int :=
  if s.offset + s.programmeDuration > timeNow then timeNow - s.offset
  else s.programmeDuration

/-- The local `urlFormatString` of `GetUpdatedCatchupUrl`: the near-live format close to the
live edge when there is one, the catch-up format otherwise. -/
def selectedFormat (s : FFmpegCatchupStream) (timeNow : Int) : Str :=
  if s.offset > timeNow - s.m_defaultProgrammeDuration ∧
      ¬ s.m_catchupUrlNearLiveFormatString.isEmpty then
    s.m_catchupUrlNearLiveFormatString
  else s.m_catchupUrlFormatString

/-- The substitution of the catch-up id in a formatted url, as `GetUpdatedCatchupUrl` does
it. -/
def substituteCatchupId (s : FFmpegCatchupStream) (catchupUrl : Str) : Str :=
  if ¬ s.m_programmeCatchupId.isEmpty then regex_replace catchupUrl s.m_programmeCatchupId
  else catchupUrl

/-- The method `GetUpdatedCatchupUrl()`; `timeNow` is the value of `time(0)` in the method and
`dateTimeNow` its value in `FormatDateTime`. -/
def GetUpdatedCatchupUrl (strftime : Char → Int → Str) (s : FFmpegCatchupStream)
    (timeNow dateTimeNow : Int) : Except CppException Str :=
  if s.m_catchupBufferStartTime > 0 ∧ s.offset < timeNow - 5 then
    match FormatDateTime strftime dateTimeNow (s.offset - s.m_timezoneShift)
        (s.cappedDuration timeNow) (s.selectedFormat timeNow) with
    | .error e => .error e
    | .ok formatted =>
      let catchupUrl := s.substituteCatchupId formatted
      if ¬ catchupUrl.isEmpty then .ok catchupUrl else .ok s.m_defaultUrl
  else .ok s.m_defaultUrl

/-- The method `SeekCatchupStream(timeMs, whence)`: the stream after the call and the value
returned or the exception raised. `timeNow` is the value of `time(0)` in the method,
`urlTimeNow` and `dateTimeNow` are its values in `GetUpdatedCatchupUrl` and
`FormatDateTime`. The offset is stored before the url is computed, so it stays stored when
the computation of the url raises. -/
def SeekCatchupStream (strftime : Char → Int → Str) (s : FFmpegCatchupStream)
    (timeNow urlTimeNow dateTimeNow : Int) (timeMs : ℚ) (whence : Int) :
    FFmpegCatchupStream × Except CppException Int :=
  if s.m_catchupBufferStartTime > 0 then
    let position := static_cast_int64 timeMs
    if whence = SEEK_SET then
      let position := Int.tdiv (position + 500) 1000
      let ret :=
        if s.m_catchupBufferStartTime + position < timeNow - 10 then position
        else timeNow - s.m_catchupBufferStartTime
      let s1 := { s with m_catchupBufferOffset := ret }
      match GetUpdatedCatchupUrl strftime s1 urlTimeNow dateTimeNow with
      | .ok url => ({ s1 with m_streamUrl := url }, .ok (ret * DVD_TIME_BASE))
      | .error e => (s1, .error e)
    else if whence = SEEK_CUR then
      (s, .ok (s.m_catchupBufferOffset * DVD_TIME_BASE))
    else (s, .ok (-1))
  else (s, .ok (-1))

end FFmpegCatchupStream

/-! ## The demux pipeline and the methods that drive it -/

/-- Modelled from the spec: the header that defines `DVD_PLAYSPEED_PAUSE` is not part of the
source file; the speed 0 means pause. -/
def DVD_PLAYSPEED_PAUSE : Int := 0

/-- Modelled from the spec: the header that defines `DVD_NOPTS_VALUE` is not part of the source
file; it is the value of a position that is unknown (`0xFFF0000000000000` in the headers of
the host). -/
def DVD_NOPTS_VALUE : ℚ := 18442240474082181120

/-- The fields of a `DemuxPacket` that matter here: the two timestamps, which the stream
rewrites, and the size, the stream id and the duration, which stand for the fields it does not
touch. The declaration is not part of the source file. -/
structure DemuxPacket where
  iSize : Int
  iStreamId : Int
  pts : ℚ
  dts : ℚ
  duration : ℚ
  deriving DecidableEq

/-- The fields of `INPUTSTREAM_TIMES`; the declaration is not part of the source file. -/
structure INPUTSTREAM_TIMES where
  startTime : Int
  ptsStart : ℚ
  ptsBegin : ℚ
  ptsEnd : ℚ
  deriving DecidableEq

/-- Modelled from the spec: the base class `FFmpegStream`, the external demux pipeline of the
specification, is not part of the source file. The methods of the base class that the
catch-up stream calls are taken as they come: each is a function on the state `σ` of the
pipeline, which holds everything that belongs to the base class except the members
`m_streamUrl` and `m_currentPts`.
* `Open` gets the arguments of the call and the current `m_streamUrl`, and yields the new
  state, the value it leaves in `m_streamUrl` and its result.
* `DemuxReset` reopens the pipeline at the url in `m_streamUrl` and yields the new state and
  the value it leaves in `m_demuxResetOpenSuccess`.
* `DemuxRead` yields the new state and the packet read, if any.
* `DemuxSetSpeed` and `IsPaused` set and test the speed of the pipeline.
* `UpdateCurrentPTS` yields the new state and the value it leaves in `m_currentPts`. -/
structure Pipeline (σ : Type) where
  Open : σ → Str → Str → Str → Bool → Str → σ × Str × Bool
  DemuxReset : σ → Str → σ × Bool
  DemuxRead : σ → σ × Option DemuxPacket
  DemuxSetSpeed : σ → Int → σ
  IsPaused : σ → Bool
  UpdateCurrentPTS : σ → σ × ℚ

/-- What a method leaves behind: the stream, the state of the pipeline, and the value returned
or the exception raised. -/
structure Outcome (σ α : Type) where
  stream : FFmpegCatchupStream
  pipeline : σ
  result : Except CppException α

namespace FFmpegCatchupStream

/-- The method `DemuxSeekTime(timeMs, backwards, startpts)`; `backwards` and `startpts` are only
logged. The three instants are the values of `time(0)` in `SeekCatchupStream`,
`GetUpdatedCatchupUrl` and `FormatDateTime`. -/
def DemuxSeekTime {σ : Type} (pl : Pipeline σ) (strftime : Char → Int → Str)
    (s : FFmpegCatchupStream) (p : σ) (timeNow urlTimeNow dateTimeNow : Int) (timeMs : ℚ) :
    Outcome σ Bool :=
  if timeMs < 0 then ⟨s, p, .ok false⟩
  else
    match SeekCatchupStream strftime s timeNow urlTimeNow dateTimeNow timeMs
        (if s.m_isOpeningStream then SEEK_CUR else SEEK_SET) with
    | (s1, .error e) => ⟨s1, p, .error e⟩
    | (s1, .ok seekResult) =>
      if seekResult ≥ 0 then
        let s2 := { s1 with m_seekOffset := (seekResult : ℚ) }
        if ¬ s2.m_isOpeningStream then
          let r := pl.DemuxReset p s2.m_streamUrl
          ⟨s2, r.1, .ok r.2⟩
        else ⟨s2, p, .ok true⟩
      else ⟨s1, p, .ok false⟩

/-- The method `Open(streamUrl, mimeType, isRealTimeStream, programProperty)`. -/
def Open {σ : Type} (pl : Pipeline σ) (strftime : Char → Int → Str)
    (s : FFmpegCatchupStream) (p : σ) (timeNow urlTimeNow dateTimeNow : Int)
    (streamUrl mimeType : Str) (isRealTimeStream : Bool) (programProperty : Str) :
    Outcome σ Bool :=
  let s1 := { s with m_isOpeningStream := true }
  let o := pl.Open p s1.m_streamUrl streamUrl mimeType isRealTimeStream programProperty
  let ret := o.2.2
  let s2 := { s1 with m_streamUrl := o.2.1 }
  let r := DemuxSeekTime pl strftime s2 o.1 timeNow urlTimeNow dateTimeNow 0
  match r.result with
  | .error e => ⟨r.stream, r.pipeline, .error e⟩
  | .ok _ => ⟨{ r.stream with m_isOpeningStream := false }, r.pipeline, .ok ret⟩

/-- The method `DemuxRead()`: the stream, the state of the pipeline and the packet returned,
`none` for the null pointer. -/
def DemuxRead {σ : Type} (pl : Pipeline σ) (s : FFmpegCatchupStream) (p : σ) :
    FFmpegCatchupStream × σ × Option DemuxPacket :=
  match pl.DemuxRead p with
  | (p1, some pPacket) =>
    let pPacket := { pPacket with pts := double_add pPacket.pts s.m_seekOffset }
    let pPacket := { pPacket with dts := double_add pPacket.dts s.m_seekOffset }
    ({ s with m_currentDemuxTime := double_div pPacket.pts 1000 }, p1, some pPacket)
  | (p1, none) => (s, p1, none)

/-- The method `DemuxSetSpeed(speed)`. -/
def DemuxSetSpeed {σ : Type} (pl : Pipeline σ) (strftime : Char → Int → Str)
    (s : FFmpegCatchupStream) (p : σ) (timeNow urlTimeNow dateTimeNow : Int) (speed : Int) :
    Outcome σ Unit :=
  if pl.IsPaused p = true ∧ speed ≠ DVD_PLAYSPEED_PAUSE then
    let r := DemuxSeekTime pl strftime s p timeNow urlTimeNow dateTimeNow s.m_pauseStartTime
    match r.result with
    | .error e => ⟨r.stream, r.pipeline, .error e⟩
    | .ok _ => ⟨r.stream, pl.DemuxSetSpeed r.pipeline speed, .ok ()⟩
  else if ¬ pl.IsPaused p = true ∧ speed = DVD_PLAYSPEED_PAUSE then
    ⟨{ s with m_pauseStartTime := s.m_currentDemuxTime }, pl.DemuxSetSpeed p speed, .ok ()⟩
  else ⟨s, pl.DemuxSetSpeed p speed, .ok ()⟩

/-- The method `GetTimes(times)`: the result and the new value of `times`; `dateTimeNow` is
the value of `time(0)`. -/
def GetTimes (s : FFmpegCatchupStream) (dateTimeNow : Int) (times : INPUTSTREAM_TIMES) :
    Bool × INPUTSTREAM_TIMES :=
  if s.m_catchupBufferStartTime = 0 then (false, times)
  else
    let times : INPUTSTREAM_TIMES := ⟨0, 0, 0, 0⟩
    let times := { times with startTime := s.m_catchupBufferStartTime }
    let times :=
      if s.m_playbackAsLive = true then
        { times with
          ptsEnd := double_mul (int64_to_double (dateTimeNow - times.startTime))
            (int64_to_double DVD_TIME_BASE) }
      else
        { times with
          ptsEnd :=
            double_mul
              (int64_to_double (min dateTimeNow s.m_catchupBufferEndTime - times.startTime))
              (int64_to_double DVD_TIME_BASE) }
    (true, times)

/-- The method `LengthStream()`; `dateTimeNow` is the value of `time(0)` in `GetTimes`. -/
def LengthStream (s : FFmpegCatchupStream) (dateTimeNow : Int) : Int :=
  let length : Int := -1
  if s.m_catchupBufferStartTime > 0 ∧
      s.m_catchupBufferEndTime ≥ s.m_catchupBufferStartTime then
    let r := GetTimes s dateTimeNow ⟨0, 0, 0, 0⟩
    if r.1 = true ∧ r.2.ptsEnd ≥ r.2.ptsBegin then
      static_cast_int64 (double_sub r.2.ptsEnd r.2.ptsBegin)
    else length
  else length

/-- The method `UpdateCurrentPTS()`. -/
def UpdateCurrentPTS {σ : Type} (pl : Pipeline σ) (s : FFmpegCatchupStream) (p : σ) :
    FFmpegCatchupStream × σ :=
  let r := pl.UpdateCurrentPTS p
  let s1 := { s with m_currentPts := r.2 }
  if s1.m_currentPts ≠ DVD_NOPTS_VALUE then
    ({ s1 with m_currentPts := double_add s1.m_currentPts s1.m_seekOffset }, r.1)
  else (s1, r.1)

/-- The stream and the pipeline after `n` calls of `DemuxRead`. -/
def readPackets {σ : Type} (pl : Pipeline σ) : Nat → FFmpegCatchupStream → σ →
    FFmpegCatchupStream × σ
  | 0, s, p => (s, p)
  | n + 1, s, p =>
    let r := DemuxRead pl s p
    readPackets pl n r.1 r.2.1

end FFmpegCatchupStream

/-! ## Concrete data for the examples -/

/-- A stand-in for `strftime` in the examples: every field is rendered as `00`. -/
def sampleStrftime : Char → Int → Str :=
  fun _ _ => "00".toList

/-- A stream with catch-up mode inactive, no templates and no programme. -/
def plainStream : FFmpegCatchupStream :=
  { m_defaultUrl := "live.m3u8".toList
    m_playbackAsLive := false
    m_programmeStartTime := 0
    m_programmeEndTime := 0
    m_catchupUrlFormatString := []
    m_catchupUrlNearLiveFormatString := []
    m_catchupBufferStartTime := 0
    m_catchupBufferEndTime := 0
    m_catchupBufferOffset := 0
    m_timezoneShift := 0
    m_defaultProgrammeDuration := 0
    m_programmeCatchupId := [] }

/-- The configuration of the seek scenario: a buffer of one hour from `T`, the default url
`live.m3u8`, the catch-up format `vod?start={utc}&dur={duration}`, no near-live format, no
time-zone shift, no programme, no catch-up id and the default duration `D`; the other members
are those of `s0`. -/
def scenarioStream (s0 : FFmpegCatchupStream) (T D : Int) : FFmpegCatchupStream :=
  { s0 with
    m_defaultUrl := "live.m3u8".toList
    m_programmeStartTime := 0
    m_catchupUrlFormatString := "vod?start={utc}&dur={duration}".toList
    m_catchupUrlNearLiveFormatString := []
    m_catchupBufferStartTime := T
    m_catchupBufferEndTime := T + 3600
    m_timezoneShift := 0
    m_defaultProgrammeDuration := D
    m_programmeCatchupId := [] }

/-- The scenario at `T = 100000` with a catch-up format whose scaled placeholder has a divisor
that does not fit an `int`. -/
def oversizedDivisorStream : FFmpegCatchupStream :=
  { scenarioStream plainStream 100000 7200 with
    m_catchupUrlFormatString := "vod?d={duration:99999999999}".toList }

/-- A stream with a near-live format, whose playback point is `D - 1` seconds before the
instant 2000, `D` being its default programme duration. -/
def nearLiveStream (D : Int) : FFmpegCatchupStream :=
  { plainStream with
    m_catchupUrlFormatString := "vod?t={utc}".toList
    m_catchupUrlNearLiveFormatString := "near?t={utc}".toList
    m_catchupBufferStartTime := 1000
    m_catchupBufferEndTime := 4600
    m_catchupBufferOffset := 1001 - D
    m_defaultProgrammeDuration := D }

/-- A stream at the start of its buffer, 1000 seconds before the instant 2000, with the
catch-up format `fmt` and the catch-up id `id`. -/
def catchupIdStream (fmt id : Str) : FFmpegCatchupStream :=
  { plainStream with
    m_catchupUrlFormatString := fmt
    m_catchupBufferStartTime := 1000
    m_catchupBufferEndTime := 4600
    m_defaultProgrammeDuration := 60
    m_programmeCatchupId := id }

/-- The state of a small pipeline for the examples: its speed, the packets that it still has to
deliver, the urls at which it was opened and reset, whether a reset succeeds, and its current
position. -/
structure SamplePipeline where
  speed : Int
  queue : List DemuxPacket
  opened : List Str
  resets : List Str
  resetSucceeds : Bool
  position : ℚ
  deriving DecidableEq

/-- A small pipeline for the examples: `Open` records the url and leaves it in `m_streamUrl`,
`DemuxReset` records the url and succeeds or fails as the state says, `DemuxRead` delivers the
next packet of the queue, and the speed 0 means paused. -/
def samplePipeline : Pipeline SamplePipeline :=
  { Open := fun p _ streamUrl _ _ _ => ({ p with opened := p.opened ++ [streamUrl] }, streamUrl, true)
    DemuxReset := fun p url => ({ p with resets := p.resets ++ [url] }, p.resetSucceeds)
    DemuxRead := fun p =>
      match p.queue with
      | [] => (p, none)
      | x :: q => ({ p with queue := q }, some x)
    DemuxSetSpeed := fun p speed => { p with speed := speed }
    IsPaused := fun p => p.speed == DVD_PLAYSPEED_PAUSE
    UpdateCurrentPTS := fun p => (p, p.position) }

/-- A playing pipeline with two packets to deliver, at 5 and 6 seconds. -/
def playingPipeline : SamplePipeline :=
  { speed := 1000
    queue := [⟨100, 0, 5000000, 4990000, 40000⟩, ⟨120, 0, 6000000, 5990000, 40000⟩]
    opened := []
    resets := []
    resetSucceeds := true
    position := 5000000 }

/-- The stream of the seek scenario at `T = 100000`, playing 1800 seconds after the start of the
buffer, with the current demux time 1803000 ms. -/
def playingStream : FFmpegCatchupStream :=
  { scenarioStream plainStream 100000 7200 with
    m_catchupBufferOffset := 1800
    m_seekOffset := 1800000000
    m_currentDemuxTime := 1803000 }

/-- A stream whose playback point is the end of its programme: the buffer starts at 1000, the
offset is 1000, the programme runs from 1500 to 2000, and the default duration is 60. -/
def programmeEndStream : FFmpegCatchupStream :=
  { plainStream with
    m_catchupUrlFormatString := "{duration}".toList
    m_catchupBufferStartTime := 1000
    m_catchupBufferEndTime := 4600
    m_catchupBufferOffset := 1000
    m_programmeStartTime := 1500
    m_programmeEndTime := 2000
    m_defaultProgrammeDuration := 60 }

/-- The end of the stream in seconds from the start of the buffer, as the specification words
it: `now - bufferStartTime` when playing back as live, and
`min(now, bufferEndTime) - bufferStartTime` when not. -/
def endOffset (s : FFmpegCatchupStream) (now : Int) : Int :=
  if s.m_playbackAsLive = true then now - s.m_catchupBufferStartTime
  else min now s.m_catchupBufferEndTime - s.m_catchupBufferStartTime

/-- What `GetUpdatedCatchupUrl` returns in the catch-up branch once the format is rendered: the
exception of the rendering if it raised, else the rendered url with the catch-up id
substituted, or the default url when that is empty. -/
def returnedUrl (s : FFmpegCatchupStream) (rendered : Except CppException Str) :
    Except CppException Str :=
  match rendered with
  | .error e => .error e
  | .ok formatted =>
    if s.substituteCatchupId formatted = [] then .ok s.m_defaultUrl
    else .ok (s.substituteCatchupId formatted)

/-- The run of the pause scenario: `DemuxSetSpeed(DVD_PLAYSPEED_PAUSE)`, then `n` calls of
`DemuxRead`. -/
def pauseThenRead {σ : Type} (pl : Pipeline σ) (strftime : Char → Int → Str)
    (s : FFmpegCatchupStream) (p : σ) (timeNow urlTimeNow dateTimeNow : Int) (n : Nat) :
    FFmpegCatchupStream × σ :=
  FFmpegCatchupStream.readPackets pl n
    (FFmpegCatchupStream.DemuxSetSpeed pl strftime s p timeNow urlTimeNow dateTimeNow
      DVD_PLAYSPEED_PAUSE).stream
    (FFmpegCatchupStream.DemuxSetSpeed pl strftime s p timeNow urlTimeNow dateTimeNow
      DVD_PLAYSPEED_PAUSE).pipeline

/-! ## Verbatim substitution, as the specification words it -/

/-- Every occurrence of `pat` in the text, scanned from the left, replaced by `rep` as it is
written. The first argument bounds the number of steps. -/
def replaceAllVerbatimGo (pat rep : Str) : Nat → Str → Str
  | 0, s => s
  | fuel + 1, s =>
    if pat.isPrefixOf s then rep ++ replaceAllVerbatimGo pat rep fuel (s.drop pat.length)
    else
      match s with
      | [] => []
      | c :: t => c :: replaceAllVerbatimGo pat rep fuel t

/-- The text `s` with every occurrence of `pat` replaced by `rep` verbatim. -/
def replaceAllVerbatim (pat rep s : Str) : Str :=
  replaceAllVerbatimGo pat rep (s.length + 1) s

/-! ## Plain text and scaled placeholders, for the statements about `FormatUnits` -/

/-- A character of plain text in a format: not an opening brace, matched by `.` in a regular
expression, and not NUL. -/
def plainChar (c : Char) : Bool :=
  c != '{' && regexAny c && c != Char.ofNat 0

/-- The text of the scaled placeholder `{name:digits}`. -/
def scaledPlaceholder (name digits : Str) : Str :=
  ('{' :: name ++ [':']) ++ (digits ++ ['}'])

/-- Decidable equality of results, for the evaluation of the examples. -/
instance instDecidableEqResult {α : Type} [DecidableEq α] :
    DecidableEq (Except CppException α) := fun a b =>
  match a, b with
  | .ok x, .ok y =>
    if h : x = y then isTrue (by rw [h]) else isFalse (fun e => h (by injection e))
  | .error x, .error y =>
    if h : x = y then isTrue (by rw [h]) else isFalse (fun e => h (by injection e))
  | .ok _, .error _ => isFalse (fun e => by injection e)
  | .error _, .ok _ => isFalse (fun e => by injection e)

/-! # Theorems -/

open FFmpegCatchupStream

/-! ## The cast and the rounding of a seek request -/

theorem tdiv_eq_floor_of_nonneg (x : ℚ) (hx : 0 ≤ x) : Int.tdiv x.num x.den = ⌊x⌋ := by
  rw [Rat.floor_def]
  have h1 : 0 ≤ x.num := Rat.num_nonneg.mpr hx
  have h2 : (0 : Int) ≤ (x.den : Int) := Int.ofNat_nonneg _
  exact Int.tdiv_eq_ediv h1 h2

theorem static_cast_int64_of_nonneg (x : ℚ) (hx : 0 ≤ x) (hhi : x < 2 ^ 63) :
    static_cast_int64 x = ⌊x⌋ := by
  have h0 : (0 : Int) ≤ ⌊x⌋ := Int.floor_nonneg.mpr hx
  have h1 : ⌊x⌋ < 2 ^ 63 := by
    have : ⌊x⌋ < ((2 ^ 63 : Int) : ℚ) := by
      push_cast
      exact lt_of_le_of_lt (Int.floor_le x) hhi
    exact_mod_cast this
  unfold static_cast_int64 INT64_MIN
  rw [tdiv_eq_floor_of_nonneg x hx, if_pos ⟨by omega, h1⟩]

theorem static_cast_int64_of_large (x : ℚ) (hx : 2 ^ 63 ≤ x) :
    static_cast_int64 x = INT64_MIN := by
  have h1 : (2 : Int) ^ 63 ≤ ⌊x⌋ := by
    apply Int.le_floor.mpr
    push_cast
    exact hx
  unfold static_cast_int64
  rw [tdiv_eq_floor_of_nonneg x (le_trans (by norm_num) hx), if_neg (by omega)]

theorem seek_position_of_nonneg (x : ℚ) (hx : 0 ≤ x) (hhi : x < 2 ^ 63) :
    Int.tdiv (static_cast_int64 x + 500) 1000 = (⌊x⌋ + 500) / 1000 := by
  rw [static_cast_int64_of_nonneg x hx hhi]
  have h0 : (0 : Int) ≤ ⌊x⌋ := Int.floor_nonneg.mpr hx
  exact Int.tdiv_eq_ediv (by omega) (by omega)

theorem seek_rounding (timeMs : ℚ) (k : Int) (hlo : ((1000 * k - 500 : Int) : ℚ) ≤ timeMs)
    (hhi : timeMs < ((1000 * k + 500 : Int) : ℚ)) : (⌊timeMs⌋ + 500) / 1000 = k := by
  have h1 : 1000 * k - 500 ≤ ⌊timeMs⌋ := Int.le_floor.mpr hlo
  have h2 : ⌊timeMs⌋ < 1000 * k + 500 := Int.floor_lt.mpr hhi
  omega

/-! ## Lemmas on `find` and `replace` -/

theorem isPrefixOf_cons_of_ne (needle t : Str) (c a : Char) (hn : needle.head? = some c)
    (hca : c ≠ a) : needle.isPrefixOf (a :: t) = false := by
  cases needle with
  | nil => simp at hn
  | cons b n =>
    simp only [List.head?_cons, Option.some.injEq] at hn
    subst hn
    simp [List.isPrefixOf, hca]

theorem isPrefixOf_self_append (needle B : Str) : needle.isPrefixOf (needle ++ B) = true := by
  induction needle with
  | nil => cases B <;> rfl
  | cons a n ih => simp [List.isPrefixOf, ih]

theorem find_none_of_not_mem (s needle : Str) (c : Char) (hn : needle.head? = some c)
    (hs : c ∉ s) : find s needle = none := by
  induction s with
  | nil =>
    cases needle with
    | nil => simp at hn
    | cons b n => simp [find]
  | cons a t ih =>
    have hca : c ≠ a := fun h => hs (by simp [h])
    have ht : c ∉ t := fun h => hs (List.mem_cons_of_mem _ h)
    simp [find, isPrefixOf_cons_of_ne needle t c a hn hca, ih ht]

theorem find_append_of_not_mem (A X needle : Str) (c : Char) (hn : needle.head? = some c)
    (hA : c ∉ A) : find (A ++ X) needle = (find X needle).map (fun p => A.length + p) := by
  induction A with
  | nil => simp
  | cons a t ih =>
    have hca : c ≠ a := fun h => hA (by simp [h])
    have ht : c ∉ t := fun h => hA (List.mem_cons_of_mem _ h)
    have hstep : find (a :: (t ++ X)) needle = (find (t ++ X) needle).map (fun p => p + 1) := by
      simp [find, isPrefixOf_cons_of_ne needle (t ++ X) c a hn hca]
    rw [List.cons_append, hstep, ih ht]
    cases find X needle with
    | none => rfl
    | some p => simp only [Option.map_some', List.length_cons, Option.some.injEq]; omega

theorem find_of_isPrefixOf (s needle : Str) (h : needle.isPrefixOf s = true) :
    find s needle = some 0 := by
  cases s with
  | nil =>
    cases needle with
    | nil => simp [find]
    | cons b n => simp [List.isPrefixOf] at h
  | cons a t => simp [find, h]

theorem find_prefix_append (needle B : Str) : find (needle ++ B) needle = some 0 :=
  find_of_isPrefixOf _ _ (isPrefixOf_self_append needle B)

theorem find_cons_none (c : Char) (R needle : Str) (hn : needle.head? = some c)
    (hp : needle.isPrefixOf (c :: R) = false) (hR : c ∉ R) : find (c :: R) needle = none := by
  simp [find, hp, find_none_of_not_mem R needle c hn hR]

theorem find_tail_of_head_not_mem (G B : Str) (b : Char) (hb : B.head? = some b)
    (hG : b ∉ G) : find (G ++ B) B = some G.length := by
  rw [find_append_of_not_mem G B B b hb hG]
  have h := find_prefix_append B []
  rw [List.append_nil] at h
  rw [h]
  rfl

theorem replace_append (A X r : Str) (p len : Nat) :
    replace (A ++ X) (A.length + p) len r = A ++ replace X p len r := by
  unfold replace
  have h1 : List.take (A.length + p) (A ++ X) = A ++ List.take p X := by
    rw [List.take_append]
  have h2 : List.drop (A.length + p + len) (A ++ X) = List.drop (p + len) X := by
    rw [Nat.add_assoc, List.drop_append]
  rw [h1, h2]
  simp [List.append_assoc]

theorem replace_prefix_append (needle B r : Str) :
    replace (needle ++ B) 0 needle.length r = r ++ B := by
  unfold replace
  simp

/-! ## Lemmas on `FormatUtc` and `FormatTime` -/

theorem FormatUtc_of_not_mem (str s : Str) (t : Int) (c : Char) (hn : str.head? = some c)
    (hs : c ∉ s) : FormatUtc str t s = s := by
  unfold FormatUtc
  rw [find_none_of_not_mem s str c hn hs]

theorem FormatUtc_append (str A X : Str) (t : Int) (c : Char) (hn : str.head? = some c)
    (hA : c ∉ A) : FormatUtc str t (A ++ X) = A ++ FormatUtc str t X := by
  unfold FormatUtc
  rw [find_append_of_not_mem A X str c hn hA]
  cases find X str with
  | none => rfl
  | some p => simp only [Option.map_some']; rw [replace_append]

theorem FormatUtc_prefix_append (str B : Str) (t : Int) :
    FormatUtc str t (str ++ B) = formatLu t ++ B := by
  unfold FormatUtc
  rw [find_prefix_append]
  exact replace_prefix_append str B (formatLu t)

theorem FormatUtc_miss (str A R : Str) (t : Int) (c : Char) (hn : str.head? = some c)
    (hA : c ∉ A) (hp : str.isPrefixOf (c :: R) = false) (hR : c ∉ R) :
    FormatUtc str t (A ++ c :: R) = A ++ c :: R := by
  rw [FormatUtc_append str A _ t c hn hA]
  unfold FormatUtc
  rw [find_cons_none c R str hn hp hR]

theorem FormatTime_of_not_mem (strftime : Char → Int → Str) (ch : Char) (t : Int) (s : Str)
    (hs : '{' ∉ s) : FormatTime strftime ch t s = s := by
  unfold FormatTime
  rw [find_none_of_not_mem s ['{', ch, '}'] '{' rfl hs]

theorem FormatTime_append (strftime : Char → Int → Str) (ch : Char) (t : Int) (A X : Str)
    (hA : '{' ∉ A) : FormatTime strftime ch t (A ++ X) = A ++ FormatTime strftime ch t X := by
  unfold FormatTime
  rw [find_append_of_not_mem A X ['{', ch, '}'] '{' rfl hA]
  cases find X ['{', ch, '}'] with
  | none => rfl
  | some p =>
    simp only [Option.map_some']
    split
    · rw [replace_append]
    · rfl

theorem FormatTime_miss (strftime : Char → Int → Str) (ch : Char) (t : Int) (A R : Str)
    (hA : '{' ∉ A) (hp : ['{', ch, '}'].isPrefixOf ('{' :: R) = false) (hR : '{' ∉ R) :
    FormatTime strftime ch t (A ++ '{' :: R) = A ++ '{' :: R := by
  rw [FormatTime_append strftime ch t A _ hA]
  unfold FormatTime
  rw [find_cons_none '{' R ['{', ch, '}'] rfl hp hR]

/-! ## Lemmas on decimal digits -/

theorem isDigit_digitChar (k : Nat) (hk : k < 10) : (Nat.digitChar k).isDigit = true := by
  interval_cases k <;> rfl

theorem value_digitChar (k : Nat) (hk : k < 10) : (Nat.digitChar k).toNat - 48 = k := by
  interval_cases k <;> rfl

theorem toDigitsCore_isDigit (fuel : Nat) :
    ∀ (n : Nat) (ds : Str), (∀ c ∈ ds, c.isDigit = true) →
      ∀ c ∈ Nat.toDigitsCore 10 fuel n ds, c.isDigit = true := by
  induction fuel with
  | zero => intro n ds hds; simpa [Nat.toDigitsCore] using hds
  | succ fuel ih =>
    intro n ds hds
    have hd : ∀ c ∈ Nat.digitChar (n % 10) :: ds, c.isDigit = true := by
      intro c hc
      rcases List.mem_cons.mp hc with h | h
      · rw [h]; exact isDigit_digitChar _ (Nat.mod_lt _ (by decide))
      · exact hds c h
    simp only [Nat.toDigitsCore]
    split
    · exact hd
    · exact ih _ _ hd

theorem toDigits_isDigit (n : Nat) : ∀ c ∈ Nat.toDigits 10 n, c.isDigit = true :=
  toDigitsCore_isDigit _ _ _ (by simp)

theorem not_mem_toDigits (n : Nat) (c : Char) (hc : c.isDigit = false) :
    c ∉ Nat.toDigits 10 n := by
  intro h
  rw [toDigits_isDigit n c h] at hc
  exact Bool.noConfusion hc

theorem not_mem_formatLu (t : Int) (c : Char) (hc : c.isDigit = false) : c ∉ formatLu t :=
  not_mem_toDigits _ c hc

theorem toDigitsCore_value (fuel : Nat) :
    ∀ (n : Nat) (ds : Str), n < fuel →
      List.foldl (fun acc c => acc * 10 + (c.toNat - 48)) 0 (Nat.toDigitsCore 10 fuel n ds)
        = List.foldl (fun acc c => acc * 10 + (c.toNat - 48)) n ds := by
  induction fuel with
  | zero => intro n ds h; omega
  | succ fuel ih =>
    intro n ds h
    simp only [Nat.toDigitsCore]
    split
    · rename_i h0
      simp only [List.foldl_cons, Nat.zero_mul, Nat.zero_add]
      rw [value_digitChar _ (Nat.mod_lt _ (by decide))]
      congr 1
      omega
    · rename_i h0
      rw [ih _ _ (by omega)]
      simp only [List.foldl_cons]
      rw [value_digitChar _ (Nat.mod_lt _ (by decide))]
      congr 1
      omega

theorem decimalValue_toDigits (n : Nat) : decimalValue (Nat.toDigits 10 n) = n := by
  unfold decimalValue Nat.toDigits
  rw [toDigitsCore_value _ _ _ (Nat.lt_succ_self n)]
  rfl

theorem toDigits_ne_nil (n : Nat) : Nat.toDigits 10 n ≠ [] := by
  unfold Nat.toDigits
  simp only [Nat.toDigitsCore]
  split
  · simp
  · intro h
    have := Nat.toDigitsCore_lens_eq 10 n (n / 10) (Nat.digitChar (n % 10)) []
    rw [h] at this
    simp at this

theorem formatLu_of_range (t : Int) (h0 : 0 ≤ t) (h1 : t < 2 ^ 64) :
    formatLu t = to_string t := by
  unfold formatLu to_string
  rw [Int.emod_eq_of_lt h0 h1, if_neg (by omega)]

theorem to_string_max_facts (x : Int) (c : Char) (hc : c.isDigit = false) :
    c ∉ to_string (max 0 x) := by
  unfold to_string
  rw [if_neg (by omega)]
  exact not_mem_toDigits _ c hc

theorem isDigit_facts (c : Char) (h : c.isDigit = true) :
    c ≠ '{' ∧ c ≠ '}' ∧ c ≠ '-' ∧ c ≠ '+' ∧ regexAny c = true ∧ c ≠ Char.ofNat 0 ∧
      isspace c = false := by
  refine ⟨?_, ?_, ?_, ?_, ?_, ?_, ?_⟩
  · rintro rfl; exact absurd h (by decide)
  · rintro rfl; exact absurd h (by decide)
  · rintro rfl; exact absurd h (by decide)
  · rintro rfl; exact absurd h (by decide)
  · unfold regexAny
    have h1 : c ≠ '\n' := by rintro rfl; exact absurd h (by decide)
    have h2 : c ≠ '\r' := by rintro rfl; exact absurd h (by decide)
    simp [h1, h2]
  · rintro rfl; exact absurd h (by decide)
  · unfold isspace
    have h1 : c ≠ ' ' := by rintro rfl; exact absurd h (by decide)
    have h2 : 48 ≤ c.toNat := by
      simp only [Char.isDigit, Bool.and_eq_true, decide_eq_true_eq] at h
      exact h.1
    have h3 : ¬ c.toNat ≤ 13 := by omega
    simp [h1, h3]

theorem stoi_digits (digits : Str) (hd : ∀ c ∈ digits, c.isDigit = true) (hd0 : digits ≠ [])
    (hN : decimalValue digits ≤ 2147483647) : stoi digits = .ok (decimalValue digits : Int) := by
  cases digits with
  | nil => exact absurd rfl hd0
  | cons a t =>
    have ha := isDigit_facts a (hd a (by simp))
    have hdw : List.dropWhile isspace (a :: t) = a :: t :=
      List.dropWhile_cons_of_neg (by simp [ha.2.2.2.2.2.2])
    have htw : List.takeWhile Char.isDigit (a :: t) = a :: t :=
      List.takeWhile_eq_self_iff.mpr hd
    unfold stoi
    simp only [hdw, List.head?_cons]
    have h1 : (some a == some '-') = false := by simpa using ha.2.2.1
    have h2 : (some a == some '+') = false := by simpa using ha.2.2.2.1
    simp only [h1, h2, Bool.or_self, Bool.false_eq_true, if_false, htw, List.isEmpty_cons]
    rw [if_neg]
    omega

/-! ## Lemmas on the regular expression of `FormatUnits` -/

theorem matchUnitsGroup_none (name t : Str) (h : t.head? ≠ some '{') :
    matchUnitsGroup name t = none := by
  unfold matchUnitsGroup
  have hp : ('{' :: name ++ [':']).isPrefixOf t = false := by
    cases t with
    | nil => simp [List.isPrefixOf]
    | cons a t =>
      have : '{' ≠ a := fun e => h (by simp [← e])
      simp [List.isPrefixOf, this]
  simp only [hp]
  rfl

theorem matchUnitsGroup_none_of_head (name t : Str)
    (h : ('{' :: name ++ [':']).isPrefixOf t = false) : matchUnitsGroup name t = none := by
  unfold matchUnitsGroup
  simp only [h]
  rfl

theorem tryUnitsAt_none (name s : Str) (i : Nat) (h : '{' ∉ s) : tryUnitsAt name s i = none := by
  unfold tryUnitsAt
  have hd : (s.drop i).head? ≠ some '{' := by
    intro e
    apply h
    have : '{' ∈ s.drop i := List.mem_of_mem_head? e
    exact List.mem_of_mem_drop this
  rw [matchUnitsGroup_none name _ hd]
  split <;> rfl

theorem regexMatchUnits_none (name s : Str) (h : '{' ∉ s) : regexMatchUnits name s = none := by
  unfold regexMatchUnits
  generalize s.length = k
  induction k with
  | zero => simp [greedyUnits, tryUnitsAt_none name s _ h]
  | succ k ih => simp [greedyUnits, tryUnitsAt_none name s _ h, ih]

theorem regexMatchUnits_none_of_group (name s : Str)
    (h : ∀ i, matchUnitsGroup name (s.drop i) = none) : regexMatchUnits name s = none := by
  have htry : ∀ i, tryUnitsAt name s i = none := by
    intro i
    unfold tryUnitsAt
    rw [h i]
    split <;> rfl
  unfold regexMatchUnits
  generalize s.length = k
  induction k with
  | zero => simp [greedyUnits, htry]
  | succ k ih => simp [greedyUnits, htry, ih]

theorem not_mem_c_str (s : Str) (c : Char) (h : c ∉ s) : c ∉ c_str s := by
  intro hc
  exact h ((List.takeWhile_sublist _).subset hc)

theorem c_str_of_no_nul (s : Str) (h : ∀ c ∈ s, c ≠ Char.ofNat 0) : c_str s = s := by
  unfold c_str
  rw [List.takeWhile_eq_self_iff]
  intro c hc
  simpa using h c hc

theorem head_drop_ne (R : Str) (j : Nat) (c : Char) (h : c ∉ R) :
    (R.drop j).head? ≠ some c := by
  intro e
  exact h (List.mem_of_mem_drop (List.mem_of_mem_head? e))

theorem FormatUnits_of_not_mem (t : Int) (name s : Str) (h : '{' ∉ s) :
    FormatUnits t name s = .ok s := by
  unfold FormatUnits
  simp only [regexMatchUnits_none name (c_str s) (not_mem_c_str s _ h)]

theorem FormatUnits_miss (tTime : Int) (name A R : Str)
    (hnul : ∀ c ∈ A ++ '{' :: R, c ≠ Char.ofNat 0) (hA : '{' ∉ A) (hR : '{' ∉ R)
    (hp : ('{' :: name ++ [':']).isPrefixOf ('{' :: R) = false) :
    FormatUnits tTime name (A ++ '{' :: R) = .ok (A ++ '{' :: R) := by
  have hnone : regexMatchUnits name (A ++ '{' :: R) = none := by
    apply regexMatchUnits_none_of_group
    intro i
    rcases Nat.lt_trichotomy i A.length with hi | hi | hi
    · apply matchUnitsGroup_none
      intro e
      have hmem : '{' ∈ List.drop i (A ++ '{' :: R) := List.mem_of_mem_head? e
      rw [List.drop_append_of_le_length (Nat.le_of_lt hi)] at e
      have hne : List.drop i A ≠ [] := by
        intro h0
        have := congrArg List.length h0
        simp at this
        omega
      have : (List.drop i A ++ '{' :: R).head? = (List.drop i A).head? := by
        cases hda : List.drop i A with
        | nil => exact absurd hda hne
        | cons a t => rfl
      rw [this] at e
      exact hA (List.mem_of_mem_drop (List.mem_of_mem_head? e))
    · rw [hi, List.drop_left]
      exact matchUnitsGroup_none_of_head name _ hp
    · obtain ⟨j, rfl⟩ : ∃ j, i = A.length + (j + 1) := ⟨i - A.length - 1, by omega⟩
      have hdrop : List.drop (A.length + (j + 1)) (A ++ '{' :: R) = R.drop j := by
        rw [List.drop_append]
        rfl
      rw [hdrop]
      exact matchUnitsGroup_none name _ (head_drop_ne R j '{' hR)
  unfold FormatUnits
  simp only [c_str_of_no_nul _ hnul, hnone]

/-! ## The scaled placeholder in plain text

Where the text before and after a scaled placeholder is plain, the divisor fits an `int` and
the text after the placeholder does not occur in the placeholder followed by it before the end
of the placeholder, the placeholder is replaced by the clamped quotient. -/

theorem plainChar_facts (c : Char) (h : plainChar c = true) :
    c ≠ '{' ∧ regexAny c = true ∧ c ≠ Char.ofNat 0 := by
  unfold plainChar at h
  simp only [Bool.and_eq_true, bne_iff_ne, ne_eq] at h
  exact ⟨h.1.1, h.1.2, h.2⟩

theorem matchUnitsGroup_scaled (name digits B : Str)
    (hd : ∀ c ∈ digits, c.isDigit = true) (hd0 : digits ≠ []) :
    matchUnitsGroup name (('{' :: name ++ [':']) ++ (digits ++ '}' :: B))
      = some (('{' :: name ++ [':']).length + digits.length + 1) := by
  unfold matchUnitsGroup
  have htw : List.takeWhile Char.isDigit (digits ++ '}' :: B) = digits := by
    rw [List.takeWhile_append_of_pos hd, List.takeWhile_cons_of_neg (by decide),
      List.append_nil]
  have hlen : 0 < digits.length := List.length_pos.mpr hd0
  simp only [isPrefixOf_self_append, if_true, List.drop_left, htw, List.drop_append]
  rw [if_pos]
  exact ⟨hlen, rfl⟩

theorem tryUnitsAt_none_after (name A R : Str) (i : Nat) (hR : '{' ∉ R) (hi : A.length < i) :
    tryUnitsAt name (A ++ '{' :: R) i = none := by
  unfold tryUnitsAt
  obtain ⟨j, rfl⟩ : ∃ j, i = A.length + (j + 1) := ⟨i - A.length - 1, by omega⟩
  have hdrop : List.drop (A.length + (j + 1)) (A ++ '{' :: R) = R.drop j := by
    rw [List.drop_append]
    rfl
  rw [hdrop, matchUnitsGroup_none name _ (head_drop_ne R j '{' hR)]
  split <;> rfl

theorem greedyUnits_of_last (name A R : Str) (r : UnitsMatch) (hR : '{' ∉ R)
    (hr : tryUnitsAt name (A ++ '{' :: R) A.length = some r) (k : Nat) (hk : A.length ≤ k) :
    greedyUnits name (A ++ '{' :: R) k = some r := by
  induction k with
  | zero =>
    have h0 : A.length = 0 := by omega
    rw [h0] at hr
    simpa [greedyUnits] using hr
  | succ k ih =>
    by_cases hlast : A.length = k + 1
    · rw [hlast] at hr
      simp [greedyUnits, hr]
    · simp only [greedyUnits,
        tryUnitsAt_none_after name A R (k + 1) hR (by omega)]
      exact ih (by omega)

theorem regexMatchUnits_scaled (name A B digits : Str)
    (hname : ∀ c ∈ name, plainChar c = true) (hA : ∀ c ∈ A, plainChar c = true)
    (hB : ∀ c ∈ B, plainChar c = true)
    (hd : ∀ c ∈ digits, c.isDigit = true) (hd0 : digits ≠ []) :
    regexMatchUnits name (A ++ (scaledPlaceholder name digits ++ B))
      = some ⟨A.length, A.length + (scaledPlaceholder name digits).length,
          A.length + name.length + 2,
          A.length + (scaledPlaceholder name digits).length - 1⟩ := by
  have hcanon : A ++ (scaledPlaceholder name digits ++ B)
      = A ++ '{' :: (name ++ ':' :: (digits ++ '}' :: B)) := by
    simp [scaledPlaceholder]
  have hcanon2 : A ++ '{' :: (name ++ ':' :: (digits ++ '}' :: B))
      = A ++ (('{' :: name ++ [':']) ++ (digits ++ '}' :: B)) := by
    simp
  have hlenG : (scaledPlaceholder name digits).length
      = ('{' :: name ++ [':']).length + digits.length + 1 := by
    simp [scaledPlaceholder]; omega
  have hR : '{' ∉ name ++ ':' :: (digits ++ '}' :: B) := by
    intro h
    rcases List.mem_append.mp h with h | h
    · exact (plainChar_facts _ (hname _ h)).1 rfl
    · rcases List.mem_cons.mp h with h | h
      · exact absurd h (by decide)
      · rcases List.mem_append.mp h with h | h
        · exact (isDigit_facts _ (hd _ h)).1 rfl
        · rcases List.mem_cons.mp h with h | h
          · exact absurd h (by decide)
          · exact (plainChar_facts _ (hB _ h)).1 rfl
  have hAall : A.all regexAny = true := by
    rw [List.all_eq_true]
    intro c hc
    exact (plainChar_facts c (hA c hc)).2.1
  have hBall : B.all regexAny = true := by
    rw [List.all_eq_true]
    intro c hc
    exact (plainChar_facts c (hB c hc)).2.1
  have htry : tryUnitsAt name (A ++ '{' :: (name ++ ':' :: (digits ++ '}' :: B))) A.length
      = some ⟨A.length, A.length + (scaledPlaceholder name digits).length,
          A.length + name.length + 2,
          A.length + (scaledPlaceholder name digits).length - 1⟩ := by
    rw [hcanon2]
    unfold tryUnitsAt
    rw [List.take_left, hAall, if_pos rfl, List.drop_left, matchUnitsGroup_scaled name digits B hd hd0]
    have hdropB : List.drop (A.length + (('{' :: name ++ [':']).length + digits.length + 1))
        (A ++ (('{' :: name ++ [':']) ++ (digits ++ '}' :: B))) = B := by
      rw [List.drop_append, Nat.add_assoc, List.drop_append]
      have : digits ++ '}' :: B = (digits ++ ['}']) ++ B := by simp
      rw [this]
      exact List.drop_left' (by simp)
    simp only [hdropB, hBall, if_true, hlenG]
  unfold regexMatchUnits
  rw [hcanon]
  exact greedyUnits_of_last name A _ _ hR htry _ (by simp)

theorem FormatUnits_scaled (tTime : Int) (name A B digits : Str)
    (hname : ∀ c ∈ name, plainChar c = true) (hA : ∀ c ∈ A, plainChar c = true)
    (hB : ∀ c ∈ B, plainChar c = true)
    (hd : ∀ c ∈ digits, c.isDigit = true) (hd0 : digits ≠ [])
    (hN0 : decimalValue digits ≠ 0) (hN : decimalValue digits ≤ 2147483647)
    (hfind : B = [] ∨ find (scaledPlaceholder name digits ++ B) B
      = some (scaledPlaceholder name digits).length) :
    FormatUnits tTime name (A ++ (scaledPlaceholder name digits ++ B))
      = .ok (A ++ (to_string (max 0 (Int.tdiv tTime (decimalValue digits))) ++ B)) := by
  have hG : scaledPlaceholder name digits = ('{' :: name ++ [':']) ++ (digits ++ ['}']) := rfl
  have hGB : scaledPlaceholder name digits ++ B
      = ('{' :: name ++ [':']) ++ (digits ++ '}' :: B) := by
    simp [scaledPlaceholder]
  have hlenH : ('{' :: name ++ [':']).length = name.length + 2 := by simp
  have hlenG : (scaledPlaceholder name digits).length = name.length + 2 + digits.length + 1 := by
    simp [scaledPlaceholder]; omega
  have hnul : ∀ c ∈ A ++ (scaledPlaceholder name digits ++ B), c ≠ Char.ofNat 0 := by
    intro c hc
    rw [hGB] at hc
    simp only [List.mem_append, List.mem_cons, List.mem_singleton, List.not_mem_nil,
      or_false] at hc
    rcases hc with h | ((h | h) | h) | h | h | h
    · exact (plainChar_facts c (hA c h)).2.2
    · rw [h]; decide
    · exact (plainChar_facts c (hname c h)).2.2
    · rw [h]; decide
    · exact (isDigit_facts c (hd c h)).2.2.2.2.2.1
    · rw [h]; decide
    · exact (plainChar_facts c (hB c h)).2.2
  have hd1 : List.drop A.length (A ++ (scaledPlaceholder name digits ++ B))
      = scaledPlaceholder name digits ++ B := List.drop_left _ _
  have hd2 : List.drop (A.length + (scaledPlaceholder name digits).length)
      (A ++ (scaledPlaceholder name digits ++ B)) = B := by
    rw [List.drop_append, List.drop_left]
  have hd3 : List.drop (A.length + name.length + 2)
      (A ++ (scaledPlaceholder name digits ++ B)) = digits ++ '}' :: B := by
    rw [Nat.add_assoc, List.drop_append, hGB]
    exact List.drop_left' hlenH
  have hd4 : List.drop (A.length + (scaledPlaceholder name digits).length - 1)
      (A ++ (scaledPlaceholder name digits ++ B)) = '}' :: B := by
    have e : A.length + (scaledPlaceholder name digits).length - 1
        = A.length + (('{' :: name ++ [':']).length + digits.length) := by
      rw [hlenG, hlenH]; omega
    rw [e, List.drop_append, hGB, List.drop_append, List.drop_left]
  have hfirst : (if 0 < B.length then
        erase (scaledPlaceholder name digits ++ B) (find (scaledPlaceholder name digits ++ B) B)
      else (pure (scaledPlaceholder name digits ++ B) : Except CppException Str))
      = .ok (scaledPlaceholder name digits) := by
    rcases hfind with h | h
    · subst h
      simp [pure, Except.pure]
    · have hB0 : 0 < B.length := by
        cases B with
        | nil =>
          rw [List.append_nil] at h
          have : find (scaledPlaceholder name digits) [] = some 0 := by
            cases hs : scaledPlaceholder name digits <;> simp [find]
          rw [this] at h
          simp only [Option.some.injEq] at h
          rw [hlenG] at h
          omega
        | cons b t => simp
      rw [if_pos hB0, h]
      simp [erase]
  have hbrace : '}' ∉ digits := fun h => (isDigit_facts _ (hd _ h)).2.1 rfl
  have hsecond : erase (digits ++ '}' :: B) (find (digits ++ '}' :: B) ('}' :: B))
      = .ok digits := by
    rw [find_append_of_not_mem digits ('}' :: B) ('}' :: B) '}' rfl hbrace]
    have := find_prefix_append ('}' :: B) []
    rw [List.append_nil] at this
    rw [this]
    simp [erase]
  have hfindG : find (A ++ (scaledPlaceholder name digits ++ B)) (scaledPlaceholder name digits)
      = some A.length := by
    have hAb : '{' ∉ A := fun h => (plainChar_facts _ (hA _ h)).1 rfl
    rw [find_append_of_not_mem A _ _ '{' (by simp [scaledPlaceholder]) hAb,
      find_prefix_append]
    rfl
  have hlen3 : 3 ≤ (A ++ (scaledPlaceholder name digits ++ B)).length := by
    simp only [List.length_append, hlenG]; omega
  have hNz : (decimalValue digits : Int) ≠ 0 := by exact_mod_cast hN0
  have hrep : replace (A ++ (scaledPlaceholder name digits ++ B)) A.length
      (scaledPlaceholder name digits).length
      (to_string (if Int.tdiv tTime (decimalValue digits) < 0 then 0
        else Int.tdiv tTime (decimalValue digits)))
      = A ++ (to_string (max 0 (Int.tdiv tTime (decimalValue digits))) ++ B) := by
    have h := replace_append A (scaledPlaceholder name digits ++ B)
      (to_string (if Int.tdiv tTime (decimalValue digits) < 0 then 0
        else Int.tdiv tTime (decimalValue digits))) 0 (scaledPlaceholder name digits).length
    rw [Nat.add_zero, replace_prefix_append] at h
    rw [h]
    congr 3
    split <;> omega
  unfold FormatUnits
  simp only [c_str_of_no_nul _ hnul,
    regexMatchUnits_scaled name A B digits hname hA hB hd hd0, if_pos hlen3,
    hd1, hd2, hd3, hd4, List.length_cons, Nat.zero_lt_succ, if_true, hsecond,
    stoi_digits digits hd hd0 hN, bind, Except.bind]
  by_cases hB0 : 0 < B.length
  · rw [if_pos hB0] at hfirst
    simp only [if_pos hB0, hfirst, hNz, ne_eq, not_false_eq_true, if_true, hfindG, replaceAt,
      hrep]
  · rw [if_neg hB0] at hfirst
    simp only [if_neg hB0, hfirst, hNz, ne_eq, not_false_eq_true, if_true, hfindG, replaceAt,
      hrep]

theorem scaled_context_facts (A B digits tail : Str) (c : Char) (hc : c.isDigit = false)
    (hA : c ∉ A) (hB : c ∉ B) (htail : c ∉ tail) (hbrace : c ≠ '}')
    (hd : ∀ x ∈ digits, x.isDigit = true) :
    c ∉ A ∧ c ∉ tail ++ (digits ++ '}' :: B) := by
  refine ⟨hA, ?_⟩
  intro h
  rcases List.mem_append.mp h with h | h
  · exact htail h
  · rcases List.mem_append.mp h with h | h
    · rw [hd c h] at hc
      exact Bool.noConfusion hc
    · rcases List.mem_cons.mp h with h | h
      · exact hbrace h
      · exact hB h

theorem FormatDateTime_scaled_duration (strftime : Char → Int → Str) (dateTimeNow e d : Int)
    (A B digits : Str)
    (hA : ∀ c ∈ A, plainChar c = true ∧ c ≠ '$')
    (hB : ∀ c ∈ B, plainChar c = true ∧ c ≠ '$')
    (hd : ∀ c ∈ digits, c.isDigit = true) (hd0 : digits ≠ [])
    (hN0 : decimalValue digits ≠ 0) (hN : decimalValue digits ≤ 2147483647)
    (hfind : B = [] ∨ find (scaledPlaceholder "duration".toList digits ++ B) B
      = some (scaledPlaceholder "duration".toList digits).length) :
    FormatDateTime strftime dateTimeNow e d
        (A ++ (scaledPlaceholder "duration".toList digits ++ B))
      = .ok (A ++ (to_string (max 0 (Int.tdiv d (decimalValue digits))) ++ B)) := by
  have hs : A ++ (scaledPlaceholder "duration".toList digits ++ B)
      = A ++ '{' :: ("duration:".toList ++ (digits ++ '}' :: B)) := by
    simp [scaledPlaceholder]
  have hAb : '{' ∉ A := fun h => (plainChar_facts _ (hA _ h).1).1 rfl
  have hBb : '{' ∉ B := fun h => (plainChar_facts _ (hB _ h).1).1 rfl
  have hAd : '$' ∉ A := fun h => (hA _ h).2 rfl
  have hBd : '$' ∉ B := fun h => (hB _ h).2 rfl
  have hRb := (scaled_context_facts A B digits "duration:".toList '{' rfl hAb hBb (by decide)
    (by decide) hd).2
  have hRd := (scaled_context_facts A B digits "duration:".toList '$' rfl hAd hBd (by decide)
    (by decide) hd).2
  have hsd : '$' ∉ A ++ '{' :: ("duration:".toList ++ (digits ++ '}' :: B)) := by
    intro h
    rcases List.mem_append.mp h with h | h
    · exact hAd h
    · rcases List.mem_cons.mp h with h | h
      · exact absurd h (by decide)
      · exact hRd h
  have hout : ∀ c : Char, c.isDigit = false → c ∉ A → c ∉ B →
      c ∉ A ++ (to_string (max 0 (Int.tdiv d (decimalValue digits))) ++ B) := by
    intro c hc h1 h2 h
    rcases List.mem_append.mp h with h | h
    · exact h1 h
    · rcases List.mem_append.mp h with h | h
      · exact to_string_max_facts _ c hc h
      · exact h2 h
  have hunits := FormatUnits_scaled d "duration".toList A B digits (by decide)
    (fun c hc => (hA c hc).1) (fun c hc => (hB c hc).1) hd hd0 hN0 hN hfind
  rw [hs] at hunits
  have hT : ∀ ch : Char, ch = 'Y' ∨ ch = 'm' ∨ ch = 'd' ∨ ch = 'H' ∨ ch = 'M' ∨ ch = 'S' →
      FormatTime strftime ch e (A ++ '{' :: ("duration:".toList ++ (digits ++ '}' :: B)))
        = A ++ '{' :: ("duration:".toList ++ (digits ++ '}' :: B)) := by
    intro ch h
    rcases h with h | h | h | h | h | h <;> subst h <;>
      exact FormatTime_miss strftime _ e A _ hAb rfl hRb
  have hU : ∀ (str : Str) (t : Int), str = "{utc}".toList ∨ str = "{utcend}".toList ∨
      str = "{lutc}".toList ∨ str = "{duration}".toList →
      FormatUtc str t (A ++ '{' :: ("duration:".toList ++ (digits ++ '}' :: B)))
        = A ++ '{' :: ("duration:".toList ++ (digits ++ '}' :: B)) := by
    intro str t h
    rcases h with h | h | h | h <;> subst h <;>
      exact FormatUtc_miss _ A _ t '{' rfl hAb rfl hRb
  have hD : ∀ (str : Str) (t : Int), str = "${start}".toList ∨ str = "${end}".toList ∨
      str = "${timestamp}".toList →
      FormatUtc str t (A ++ '{' :: ("duration:".toList ++ (digits ++ '}' :: B)))
        = A ++ '{' :: ("duration:".toList ++ (digits ++ '}' :: B)) := by
    intro str t h
    rcases h with h | h | h <;> subst h <;>
      exact FormatUtc_of_not_mem _ _ t '$' rfl hsd
  unfold FormatDateTime
  rw [hs]
  simp only [hT, hU, hD, true_or, or_true, hunits, bind, Except.bind]
  rw [FormatUtc_of_not_mem "${offset}".toList _ _ '$' rfl (hout '$' rfl hAd hBd),
    FormatUnits_of_not_mem _ _ _ (hout '{' rfl hAb hBb)]
  rfl

theorem FormatDateTime_scaled_offset (strftime : Char → Int → Str) (dateTimeNow e d : Int)
    (A B digits : Str)
    (hA : ∀ c ∈ A, plainChar c = true ∧ c ≠ '$')
    (hB : ∀ c ∈ B, plainChar c = true ∧ c ≠ '$')
    (hd : ∀ c ∈ digits, c.isDigit = true) (hd0 : digits ≠ [])
    (hN0 : decimalValue digits ≠ 0) (hN : decimalValue digits ≤ 2147483647)
    (hfind : B = [] ∨ find (scaledPlaceholder "offset".toList digits ++ B) B
      = some (scaledPlaceholder "offset".toList digits).length) :
    FormatDateTime strftime dateTimeNow e d
        (A ++ (scaledPlaceholder "offset".toList digits ++ B))
      = .ok (A ++ (to_string (max 0 (Int.tdiv (dateTimeNow - e) (decimalValue digits)))
          ++ B)) := by
  have hs : A ++ (scaledPlaceholder "offset".toList digits ++ B)
      = A ++ '{' :: ("offset:".toList ++ (digits ++ '}' :: B)) := by
    simp [scaledPlaceholder]
  have hAb : '{' ∉ A := fun h => (plainChar_facts _ (hA _ h).1).1 rfl
  have hBb : '{' ∉ B := fun h => (plainChar_facts _ (hB _ h).1).1 rfl
  have hAd : '$' ∉ A := fun h => (hA _ h).2 rfl
  have hBd : '$' ∉ B := fun h => (hB _ h).2 rfl
  have hAn : Char.ofNat 0 ∉ A := fun h => (plainChar_facts _ (hA _ h).1).2.2 rfl
  have hBn : Char.ofNat 0 ∉ B := fun h => (plainChar_facts _ (hB _ h).1).2.2 rfl
  have hRb := (scaled_context_facts A B digits "offset:".toList '{' rfl hAb hBb (by decide)
    (by decide) hd).2
  have hRd := (scaled_context_facts A B digits "offset:".toList '$' rfl hAd hBd (by decide)
    (by decide) hd).2
  have hRn := (scaled_context_facts A B digits "offset:".toList (Char.ofNat 0) rfl hAn hBn
    (by decide) (by decide) hd).2
  have hsd : '$' ∉ A ++ '{' :: ("offset:".toList ++ (digits ++ '}' :: B)) := by
    intro h
    rcases List.mem_append.mp h with h | h
    · exact hAd h
    · rcases List.mem_cons.mp h with h | h
      · exact absurd h (by decide)
      · exact hRd h
  have hnul : ∀ c ∈ A ++ '{' :: ("offset:".toList ++ (digits ++ '}' :: B)),
      c ≠ Char.ofNat 0 := by
    intro c h hc
    subst hc
    rcases List.mem_append.mp h with h | h
    · exact hAn h
    · rcases List.mem_cons.mp h with h | h
      · exact absurd h (by decide)
      · exact hRn h
  have hunits := FormatUnits_scaled (dateTimeNow - e) "offset".toList A B digits (by decide)
    (fun c hc => (hA c hc).1) (fun c hc => (hB c hc).1) hd hd0 hN0 hN hfind
  rw [hs] at hunits
  have hT : ∀ ch : Char, ch = 'Y' ∨ ch = 'm' ∨ ch = 'd' ∨ ch = 'H' ∨ ch = 'M' ∨ ch = 'S' →
      FormatTime strftime ch e (A ++ '{' :: ("offset:".toList ++ (digits ++ '}' :: B)))
        = A ++ '{' :: ("offset:".toList ++ (digits ++ '}' :: B)) := by
    intro ch h
    rcases h with h | h | h | h | h | h <;> subst h <;>
      exact FormatTime_miss strftime _ e A _ hAb rfl hRb
  have hU : ∀ (str : Str) (t : Int), str = "{utc}".toList ∨ str = "{utcend}".toList ∨
      str = "{lutc}".toList ∨ str = "{duration}".toList →
      FormatUtc str t (A ++ '{' :: ("offset:".toList ++ (digits ++ '}' :: B)))
        = A ++ '{' :: ("offset:".toList ++ (digits ++ '}' :: B)) := by
    intro str t h
    rcases h with h | h | h | h <;> subst h <;>
      exact FormatUtc_miss _ A _ t '{' rfl hAb rfl hRb
  have hD : ∀ (str : Str) (t : Int), str = "${start}".toList ∨ str = "${end}".toList ∨
      str = "${timestamp}".toList ∨ str = "${offset}".toList →
      FormatUtc str t (A ++ '{' :: ("offset:".toList ++ (digits ++ '}' :: B)))
        = A ++ '{' :: ("offset:".toList ++ (digits ++ '}' :: B)) := by
    intro str t h
    rcases h with h | h | h | h <;> subst h <;>
      exact FormatUtc_of_not_mem _ _ t '$' rfl hsd
  have hmiss : FormatUnits d "duration".toList
      (A ++ '{' :: ("offset:".toList ++ (digits ++ '}' :: B)))
      = .ok (A ++ '{' :: ("offset:".toList ++ (digits ++ '}' :: B))) :=
    FormatUnits_miss d "duration".toList A _ hnul hAb hRb rfl
  unfold FormatDateTime
  rw [hs]
  simp only [hT, hU, hD, true_or, or_true, hmiss, hunits, bind, Except.bind]
  rfl

/-! ## The formats of the scenario and of the round trip -/

theorem FormatUtc_scenario_miss (str : Str) (t e : Int) (c : Char) (hn : str.head? = some c)
    (hc : c.isDigit = false) (hP : c ∉ "vod?start=".toList)
    (hR : FormatUtc str t "&dur={duration}".toList = "&dur={duration}".toList) :
    FormatUtc str t ("vod?start=".toList ++ (formatLu e ++ "&dur={duration}".toList))
      = "vod?start=".toList ++ (formatLu e ++ "&dur={duration}".toList) := by
  rw [FormatUtc_append str _ _ t c hn hP,
    FormatUtc_append str _ _ t c hn (not_mem_formatLu e c hc), hR]

theorem FormatDateTime_scenario (strftime : Char → Int → Str) (dateTimeNow e d : Int) :
    FormatDateTime strftime dateTimeNow e d "vod?start={utc}&dur={duration}".toList
      = .ok ("vod?start=".toList ++ (formatLu e ++ ("&dur=".toList ++ formatLu d))) := by
  have hY : ∀ ch : Char, ch = 'Y' ∨ ch = 'm' ∨ ch = 'd' ∨ ch = 'H' ∨ ch = 'M' ∨ ch = 'S' →
      FormatTime strftime ch e "vod?start={utc}&dur={duration}".toList
        = "vod?start={utc}&dur={duration}".toList := by
    intro ch h
    rcases h with h | h | h | h | h | h <;> subst h <;> rfl
  have hutc : FormatUtc "{utc}".toList e "vod?start={utc}&dur={duration}".toList
      = "vod?start=".toList ++ (formatLu e ++ "&dur={duration}".toList) := rfl
  have hdur : FormatUtc "{duration}".toList d
      ("vod?start=".toList ++ (formatLu e ++ "&dur={duration}".toList))
      = "vod?start=".toList ++ (formatLu e ++ ("&dur=".toList ++ formatLu d)) := by
    have hR : FormatUtc "{duration}".toList d "&dur={duration}".toList
        = "&dur=".toList ++ formatLu d := by
      have hsplit : "&dur={duration}".toList = "&dur=".toList ++ ("{duration}".toList ++ []) := rfl
      rw [hsplit, FormatUtc_append "{duration}".toList _ _ d '{' rfl (by decide),
        FormatUtc_prefix_append, List.append_nil]
    rw [FormatUtc_append "{duration}".toList _ _ d '{' rfl (by decide),
      FormatUtc_append "{duration}".toList _ _ d '{' rfl (not_mem_formatLu e _ rfl), hR]
  have hfinal : ∀ c : Char, c.isDigit = false → c ∉ "vod?start=".toList → c ∉ "&dur=".toList →
      c ∉ "vod?start=".toList ++ (formatLu e ++ ("&dur=".toList ++ formatLu d)) := by
    intro c hc h1 h2 h
    rcases List.mem_append.mp h with h | h
    · exact h1 h
    · rcases List.mem_append.mp h with h | h
      · exact not_mem_formatLu e c hc h
      · rcases List.mem_append.mp h with h | h
        · exact h2 h
        · exact not_mem_formatLu d c hc h
  unfold FormatDateTime
  simp only [hY, true_or, or_true, hutc]
  rw [FormatUtc_scenario_miss "${start}".toList e e '$' rfl rfl (by decide) rfl,
    FormatUtc_scenario_miss "{utcend}".toList (e + d) e '{' rfl rfl (by decide) rfl,
    FormatUtc_scenario_miss "${end}".toList (e + d) e '$' rfl rfl (by decide) rfl,
    FormatUtc_scenario_miss "{lutc}".toList dateTimeNow e '{' rfl rfl (by decide) rfl,
    FormatUtc_scenario_miss "${timestamp}".toList dateTimeNow e '$' rfl rfl (by decide) rfl,
    hdur,
    FormatUnits_of_not_mem d _ _ (hfinal '{' rfl (by decide) (by decide))]
  simp only [bind, Except.bind]
  rw [FormatUtc_of_not_mem "${offset}".toList _ _ '$' rfl (hfinal '$' rfl (by decide) (by decide)),
    FormatUnits_of_not_mem _ _ _ (hfinal '{' rfl (by decide) (by decide))]
  rfl

theorem FormatDateTime_utc (strftime : Char → Int → Str) (dateTimeNow e d : Int) :
    FormatDateTime strftime dateTimeNow e d "{utc}".toList = .ok (formatLu e) := by
  have hY : ∀ ch : Char, ch = 'Y' ∨ ch = 'm' ∨ ch = 'd' ∨ ch = 'H' ∨ ch = 'M' ∨ ch = 'S' →
      FormatTime strftime ch e "{utc}".toList = "{utc}".toList := by
    intro ch h
    rcases h with h | h | h | h | h | h <;> subst h <;> rfl
  have hutc : FormatUtc "{utc}".toList e "{utc}".toList = formatLu e := by
    have h := FormatUtc_prefix_append "{utc}".toList [] e
    rwa [List.append_nil, List.append_nil] at h
  have hbrace : '{' ∉ formatLu e := not_mem_formatLu e _ rfl
  have hdollar : '$' ∉ formatLu e := not_mem_formatLu e _ rfl
  unfold FormatDateTime
  simp only [hY, true_or, or_true, hutc]
  rw [FormatUtc_of_not_mem "${start}".toList _ _ '$' rfl hdollar,
    FormatUtc_of_not_mem "{utcend}".toList _ _ '{' rfl hbrace,
    FormatUtc_of_not_mem "${end}".toList _ _ '$' rfl hdollar,
    FormatUtc_of_not_mem "{lutc}".toList _ _ '{' rfl hbrace,
    FormatUtc_of_not_mem "${timestamp}".toList _ _ '$' rfl hdollar,
    FormatUtc_of_not_mem "{duration}".toList _ _ '{' rfl hbrace,
    FormatUnits_of_not_mem _ _ _ hbrace]
  simp only [bind, Except.bind]
  rw [FormatUtc_of_not_mem "${offset}".toList _ _ '$' rfl hdollar,
    FormatUnits_of_not_mem _ _ _ hbrace]
  rfl

/-! ## Lemmas on the substitution of the catch-up id -/

theorem formatExpandFrom_text_of_no_dollar (m pre suf : Str) (fmt : Str) (h : '$' ∉ fmt) :
    formatExpandFrom m pre suf .text fmt = fmt := by
  induction fmt with
  | nil => rfl
  | cons c r ih =>
    have hc : c ≠ '$' := fun e => h (by simp [e])
    have hr : '$' ∉ r := fun e => h (List.mem_cons_of_mem _ e)
    simp only [formatExpandFrom, hc, if_false, ih hr]

theorem regexReplaceGo_eq_verbatim (pat fmt : Str) (h : '$' ∉ fmt) (fuel : Nat) :
    ∀ pre s : Str, regexReplaceGo pat fmt fuel pre s
      = pre ++ replaceAllVerbatimGo pat fmt fuel s := by
  induction fuel with
  | zero => intro pre s; rfl
  | succ fuel ih =>
    intro pre s
    simp only [regexReplaceGo, replaceAllVerbatimGo]
    split
    · rw [ih, formatExpand, formatExpandFrom_text_of_no_dollar _ _ _ _ h]
      simp [List.append_assoc]
    · cases s with
      | nil => simp
      | cons c t => simp [ih, List.append_assoc]

theorem regex_replace_eq_verbatim (s fmt : Str) (h : '$' ∉ fmt) :
    regex_replace s fmt = replaceAllVerbatim CATCHUP_ID fmt s := by
  unfold regex_replace replaceAllVerbatim
  rw [regexReplaceGo_eq_verbatim _ _ h]
  rfl

theorem replaceAllVerbatimGo_ne_nil (pat rep : Str) (hrep : rep ≠ []) (fuel : Nat) (s : Str)
    (hs : s ≠ []) : replaceAllVerbatimGo pat rep fuel s ≠ [] := by
  cases fuel with
  | zero => exact hs
  | succ fuel =>
    simp only [replaceAllVerbatimGo]
    split
    · simp [hrep]
    · cases s with
      | nil => exact absurd rfl hs
      | cons c t => simp

/-! ## Lemmas on `SeekCatchupStream` and `GetUpdatedCatchupUrl` -/

theorem seek_set_stored (strftime : Char → Int → Str) (s : FFmpegCatchupStream)
    (timeNow urlTimeNow dateTimeNow : Int) (timeMs : ℚ)
    (hstart : 0 < s.m_catchupBufferStartTime) :
    (SeekCatchupStream strftime s timeNow urlTimeNow dateTimeNow timeMs SEEK_SET).1.m_catchupBufferStartTime
        = s.m_catchupBufferStartTime ∧
    (SeekCatchupStream strftime s timeNow urlTimeNow dateTimeNow timeMs SEEK_SET).1.m_catchupBufferOffset
        = if s.m_catchupBufferStartTime + Int.tdiv (static_cast_int64 timeMs + 500) 1000
              < timeNow - 10
          then Int.tdiv (static_cast_int64 timeMs + 500) 1000
          else timeNow - s.m_catchupBufferStartTime := by
  unfold SeekCatchupStream
  simp only [gt_iff_lt, hstart, if_true]
  split <;> exact ⟨rfl, rfl⟩

theorem SeekCatchupStream_set (strftime : Char → Int → Str) (s : FFmpegCatchupStream)
    (timeNow urlTimeNow dateTimeNow : Int) (timeMs : ℚ)
    (hstart : 0 < s.m_catchupBufferStartTime) (ret : Int)
    (hret : (if s.m_catchupBufferStartTime + Int.tdiv (static_cast_int64 timeMs + 500) 1000
                < timeNow - 10
              then Int.tdiv (static_cast_int64 timeMs + 500) 1000
              else timeNow - s.m_catchupBufferStartTime) = ret) :
    SeekCatchupStream strftime s timeNow urlTimeNow dateTimeNow timeMs SEEK_SET
      = match GetUpdatedCatchupUrl strftime { s with m_catchupBufferOffset := ret }
            urlTimeNow dateTimeNow with
        | .ok url =>
          ({ s with m_catchupBufferOffset := ret, m_streamUrl := url },
            .ok (ret * DVD_TIME_BASE))
        | .error e => ({ s with m_catchupBufferOffset := ret }, .error e) := by
  subst hret
  unfold SeekCatchupStream
  rw [if_pos hstart, if_pos rfl]

theorem seek_set_stores_exact (strftime : Char → Int → Str) (s : FFmpegCatchupStream)
    (timeNow urlTimeNow dateTimeNow : Int) (timeMs : ℚ)
    (hms : 0 ≤ timeMs) (hhi : timeMs < 2 ^ 63) (hstart : 0 < s.m_catchupBufferStartTime)
    (hlt : s.m_catchupBufferStartTime + (⌊timeMs⌋ + 500) / 1000 < timeNow - 10) :
    (SeekCatchupStream strftime s timeNow urlTimeNow dateTimeNow timeMs
      SEEK_SET).1.m_catchupBufferOffset = (⌊timeMs⌋ + 500) / 1000 := by
  rw [(seek_set_stored strftime s timeNow urlTimeNow dateTimeNow timeMs hstart).2,
    seek_position_of_nonneg timeMs hms hhi, if_pos hlt]

theorem seek_set_exact_of_url_ok (strftime : Char → Int → Str) (s : FFmpegCatchupStream)
    (timeNow urlTimeNow dateTimeNow : Int) (timeMs : ℚ) (url : Str)
    (hms : 0 ≤ timeMs) (hhi : timeMs < 2 ^ 63) (hstart : 0 < s.m_catchupBufferStartTime)
    (hlt : s.m_catchupBufferStartTime + (⌊timeMs⌋ + 500) / 1000 < timeNow - 10)
    (hurl : GetUpdatedCatchupUrl strftime
        { s with m_catchupBufferOffset := (⌊timeMs⌋ + 500) / 1000 } urlTimeNow dateTimeNow
      = .ok url) :
    SeekCatchupStream strftime s timeNow urlTimeNow dateTimeNow timeMs SEEK_SET
      = ({ s with m_catchupBufferOffset := (⌊timeMs⌋ + 500) / 1000, m_streamUrl := url },
          .ok ((⌊timeMs⌋ + 500) / 1000 * DVD_TIME_BASE)) := by
  rw [SeekCatchupStream_set strftime s timeNow urlTimeNow dateTimeNow timeMs hstart
      ((⌊timeMs⌋ + 500) / 1000)
      (by rw [seek_position_of_nonneg timeMs hms hhi, if_pos hlt]), hurl]

theorem scenario_updated_url (strftime : Char → Int → Str) (s0 : FFmpegCatchupStream)
    (T D urlTimeNow dateTimeNow : Int) (hT : 0 < T) (hnow : urlTimeNow = T + 1900)
    (hT64 : T + 3600 < 2 ^ 63) (hD : 0 ≤ D) :
    GetUpdatedCatchupUrl strftime
        { scenarioStream s0 T D with m_catchupBufferOffset := 1800 } urlTimeNow dateTimeNow
      = .ok ("vod?start=".toList ++ to_string (T + 1800) ++ "&dur=".toList
          ++ to_string (min D 100)) := by
  subst hnow
  have hoff : offset { scenarioStream s0 T D with m_catchupBufferOffset := 1800 } = T + 1800 := rfl
  have hprog : programmeDuration { scenarioStream s0 T D with m_catchupBufferOffset := 1800 }
      = D := by
    unfold programmeDuration
    rw [if_neg]
    · rfl
    · intro h
      exact absurd h.1 (by simp [scenarioStream])
  have hcap : cappedDuration { scenarioStream s0 T D with m_catchupBufferOffset := 1800 }
      (T + 1900) = min D 100 := by
    unfold cappedDuration
    rw [hprog, hoff]
    split <;> omega
  have hfmt : selectedFormat { scenarioStream s0 T D with m_catchupBufferOffset := 1800 }
      (T + 1900) = "vod?start={utc}&dur={duration}".toList := by
    unfold selectedFormat
    rw [if_neg]
    · rfl
    · intro h
      exact h.2 rfl
  have hid : ∀ u : Str, substituteCatchupId
      { scenarioStream s0 T D with m_catchupBufferOffset := 1800 } u = u := by
    intro u
    unfold substituteCatchupId
    rw [if_neg]
    intro h
    exact h rfl
  have hshift : (T + 1800 : Int)
      - ({ scenarioStream s0 T D with m_catchupBufferOffset := 1800 } :
          FFmpegCatchupStream).m_timezoneShift = T + 1800 := by
    show T + 1800 - 0 = T + 1800
    omega
  unfold GetUpdatedCatchupUrl
  rw [hoff, hcap, hfmt, hshift, FormatDateTime_scenario, if_pos]
  · simp only [hid]
    rw [formatLu_of_range (T + 1800) (by omega) (by omega),
      formatLu_of_range (min D 100) (by omega) (by omega)]
    simp [List.append_assoc]
  · exact ⟨hT, by omega⟩

/-! ## C1: the live-edge clamp -/

/-- C1, as amended. Live-edge clamp: after an absolute seek with `0 <= timeMs < 2^63` (the
requests that the cast to `int64_t` can hold) on a stream in catch-up mode the stored offset
never places the absolute time after `now`, and when the rounded request is not more than 10
seconds before `now` the stored offset is exactly `now - bufferStartTime`. -/
theorem seek_set_live_edge_clamp (strftime : Char → Int → Str) (s : FFmpegCatchupStream)
    (timeNow urlTimeNow dateTimeNow : Int) (timeMs : ℚ)
    (hms : 0 ≤ timeMs) (hhi : timeMs < 2 ^ 63) (hstart : 0 < s.m_catchupBufferStartTime) :
    s.m_catchupBufferStartTime +
        (SeekCatchupStream strftime s timeNow urlTimeNow dateTimeNow timeMs
          SEEK_SET).1.m_catchupBufferOffset ≤ timeNow ∧
    (s.m_catchupBufferStartTime + (⌊timeMs⌋ + 500) / 1000 ≥ timeNow - 10 →
      (SeekCatchupStream strftime s timeNow urlTimeNow dateTimeNow timeMs
          SEEK_SET).1.m_catchupBufferOffset = timeNow - s.m_catchupBufferStartTime) := by
  rw [(seek_set_stored strftime s timeNow urlTimeNow dateTimeNow timeMs hstart).2,
    seek_position_of_nonneg timeMs hms hhi]
  constructor
  · split <;> omega
  · intro h
    rw [if_neg (by omega)]

/-- C1, witness: the seek scenario at `T = 100000`: the request 1800000 ms at the instant
101805 is 5 seconds before `now`, so it is clamped and the stored offset is 1805. -/
theorem seek_set_live_edge_clamp_witness :
    (scenarioStream plainStream 100000 7200).m_catchupBufferStartTime
        + (⌊(1800000 : ℚ)⌋ + 500) / 1000 ≥ 101805 - 10 ∧
    (SeekCatchupStream sampleStrftime (scenarioStream plainStream 100000 7200)
        101805 101805 101805 1800000 SEEK_SET).1.m_catchupBufferOffset
      = 101805 - (scenarioStream plainStream 100000 7200).m_catchupBufferStartTime ∧
    (SeekCatchupStream sampleStrftime (scenarioStream plainStream 100000 7200)
        101805 101805 101805 1800000 SEEK_SET).1.m_catchupBufferOffset = 1805 ∧
    (scenarioStream plainStream 100000 7200).m_catchupBufferStartTime +
        (SeekCatchupStream sampleStrftime (scenarioStream plainStream 100000 7200)
          101805 101805 101805 1800000 SEEK_SET).1.m_catchupBufferOffset ≤ 101805 :=
  have hpre : (scenarioStream plainStream 100000 7200).m_catchupBufferStartTime
      + (⌊(1800000 : ℚ)⌋ + 500) / 1000 ≥ 101805 - 10 := by
    rw [show ⌊(1800000 : ℚ)⌋ = 1800000 from Int.floor_natCast 1800000]
    decide
  ⟨hpre,
    (seek_set_live_edge_clamp sampleStrftime (scenarioStream plainStream 100000 7200)
      101805 101805 101805 1800000 (by norm_num) (by norm_num) (by decide)).2 hpre,
    by decide!,
    (seek_set_live_edge_clamp sampleStrftime (scenarioStream plainStream 100000 7200)
      101805 101805 101805 1800000 (by norm_num) (by norm_num) (by decide)).1⟩

/-- C1, counterexample: the request `2^63` ms is far after `now`, yet it is not clamped: the
cast yields `INT64_MIN`, the stored offset is `-9223372036854775` and not `now - start`, and
the url is rendered from the catch-up format. -/
theorem seek_set_clamp_counterexample :
    (0 : ℚ) ≤ 9223372036854775808 ∧
    0 < (scenarioStream plainStream 100000 7200).m_catchupBufferStartTime ∧
    (scenarioStream plainStream 100000 7200).m_catchupBufferStartTime
        + (⌊(9223372036854775808 : ℚ)⌋ + 500) / 1000 ≥ 101900 - 10 ∧
    (SeekCatchupStream sampleStrftime (scenarioStream plainStream 100000 7200)
        101900 101900 101900 9223372036854775808 SEEK_SET).1.m_catchupBufferOffset
      = -9223372036854775 ∧
    (SeekCatchupStream sampleStrftime (scenarioStream plainStream 100000 7200)
        101900 101900 101900 9223372036854775808 SEEK_SET).1.m_catchupBufferOffset
      ≠ 101900 - (scenarioStream plainStream 100000 7200).m_catchupBufferStartTime ∧
    (SeekCatchupStream sampleStrftime (scenarioStream plainStream 100000 7200)
        101900 101900 101900 9223372036854775808 SEEK_SET).1.m_streamUrl
      ≠ (scenarioStream plainStream 100000 7200).m_defaultUrl := by
  refine ⟨by norm_num, by decide, ?_, by decide!, by decide!, by decide!⟩
  rw [show ⌊(9223372036854775808 : ℚ)⌋ = 9223372036854775808
    from Int.floor_natCast 9223372036854775808]
  decide

/-! ## C2: the exact absolute seek -/

/-- C2, at the failing input: the format has a scaled placeholder whose divisor does not fit
an `int`; the absolute seek to 1800000 ms at the instant 101900 stores the offset 1800 and
then raises `std::out_of_range` instead of returning 1800 seconds in ticks. -/
theorem seek_set_raises_on_oversized_divisor :
    0 ≤ (1800000 : ℚ) ∧ 0 < oversizedDivisorStream.m_catchupBufferStartTime ∧
    oversizedDivisorStream.m_catchupBufferStartTime + (⌊(1800000 : ℚ)⌋ + 500) / 1000
      < 101900 - 10 ∧
    (SeekCatchupStream sampleStrftime oversizedDivisorStream 101900 101900 101900 1800000
      SEEK_SET).2 = .error .out_of_range ∧
    (SeekCatchupStream sampleStrftime oversizedDivisorStream 101900 101900 101900 1800000
      SEEK_SET).1.m_catchupBufferOffset = 1800 := by
  refine ⟨by norm_num, by decide, ?_, by decide!, by decide!⟩
  rw [show ⌊(1800000 : ℚ)⌋ = 1800000 from Int.floor_natCast 1800000]
  decide

/-! ## C3: the fallback to the default url -/

/-- C3. Live-edge fallback: when catch-up mode is inactive or the offset is within 5 seconds of
`now`, `GetUpdatedCatchupUrl` returns `defaultUrl` itself; it also does when the rendered
catch-up url is the empty string. -/
theorem updated_url_fallback (strftime : Char → Int → Str) (s : FFmpegCatchupStream)
    (timeNow dateTimeNow : Int) :
    (s.m_catchupBufferStartTime ≤ 0 ∨ s.offset ≥ timeNow - 5 →
      GetUpdatedCatchupUrl strftime s timeNow dateTimeNow = .ok s.m_defaultUrl) ∧
    (∀ formatted : Str,
      FormatDateTime strftime dateTimeNow (s.offset - s.m_timezoneShift)
        (s.cappedDuration timeNow) (s.selectedFormat timeNow) = .ok formatted →
      s.substituteCatchupId formatted = [] →
      GetUpdatedCatchupUrl strftime s timeNow dateTimeNow = .ok s.m_defaultUrl) := by
  constructor
  · intro h
    unfold GetUpdatedCatchupUrl
    rw [if_neg (by omega)]
  · intro formatted hf he
    unfold GetUpdatedCatchupUrl
    split
    · rw [hf]
      simp [he]
    · rfl

/-- C3, witness: a stream 2 seconds before `now`, and a stream whose rendered url is empty. -/
theorem updated_url_fallback_witness :
    GetUpdatedCatchupUrl sampleStrftime (nearLiveStream 3) 2000 2000
      = .ok (nearLiveStream 3).m_defaultUrl ∧
    GetUpdatedCatchupUrl sampleStrftime (catchupIdStream [] []) 2000 2000
      = .ok (catchupIdStream [] []).m_defaultUrl :=
  ⟨(updated_url_fallback sampleStrftime (nearLiveStream 3) 2000 2000).1
      (Or.inr (by decide)),
    (updated_url_fallback sampleStrftime (catchupIdStream [] []) 2000 2000).2 []
      (by decide!) (by decide!)⟩

/-! ## C4: the seek scenario -/

/-- C4. The seek scenario: for every `T > 0` (with `T + 3600` a value of `time_t`) and every
default duration `D >= 0`, with `now = T + 1900` an absolute seek to `timeMs = 1800000` stores
the offset 1800 and sets the active url to `vod?start=<T+1800>&dur=<min(D, 100)>`, which is
not the default url; the call returns 1800 seconds in ticks. -/
theorem seek_scenario (strftime : Char → Int → Str) (s0 : FFmpegCatchupStream) (T D : Int)
    (hT : 0 < T) (hT64 : T + 3600 < 2 ^ 63) (hD : 0 ≤ D) :
    SeekCatchupStream strftime (scenarioStream s0 T D) (T + 1900) (T + 1900) (T + 1900)
        1800000 SEEK_SET
      = ({ scenarioStream s0 T D with
            m_catchupBufferOffset := 1800
            m_streamUrl := "vod?start=".toList ++ to_string (T + 1800) ++ "&dur=".toList
              ++ to_string (min D 100) },
          .ok (1800 * DVD_TIME_BASE)) ∧
    "vod?start=".toList ++ to_string (T + 1800) ++ "&dur=".toList ++ to_string (min D 100)
      ≠ (scenarioStream s0 T D).m_defaultUrl := by
  constructor
  · have hpos : Int.tdiv (static_cast_int64 1800000 + 500) 1000 = 1800 := by
      rw [seek_position_of_nonneg _ (by norm_num) (by norm_num)]
      norm_num
    have hstart : (scenarioStream s0 T D).m_catchupBufferStartTime = T := rfl
    rw [SeekCatchupStream_set strftime _ _ _ _ _ (by rw [hstart]; exact hT) 1800
        (by rw [hpos, hstart, if_pos (by omega)]),
      scenario_updated_url strftime s0 T D (T + 1900) (T + 1900) hT rfl hT64 hD]
  · intro h
    have := congrArg List.head? h
    simp [scenarioStream] at this

/-- C4, witness: the scenario at `T = 100000` with the default duration 7200. -/
theorem seek_scenario_witness :
    (0 : Int) < 100000 ∧ (100000 : Int) + 3600 < 2 ^ 63 ∧ (0 : Int) ≤ 7200 ∧
    SeekCatchupStream sampleStrftime (scenarioStream plainStream 100000 7200)
        (100000 + 1900) (100000 + 1900) (100000 + 1900) 1800000 SEEK_SET
      = ({ scenarioStream plainStream 100000 7200 with
            m_catchupBufferOffset := 1800
            m_streamUrl := "vod?start=".toList ++ to_string (100000 + 1800) ++ "&dur=".toList
              ++ to_string (min 7200 100) },
          .ok (1800 * DVD_TIME_BASE)) ∧
    "vod?start=".toList ++ to_string (100000 + 1800) ++ "&dur=".toList
        ++ to_string (min 7200 100)
      ≠ (scenarioStream plainStream 100000 7200).m_defaultUrl :=
  ⟨by decide, by decide, by decide,
    seek_scenario sampleStrftime plainStream 100000 7200 (by decide) (by decide) (by decide)⟩

/-! ## C5: the near-live format -/

/-- C5, as amended. Near-live selection: in catch-up mode with a non-empty near-live format, when
the offset is `now - defaultProgrammeDuration + 1` and is more than 5 seconds before `now`, the
format passed to the time formatter is the near-live format, and `GetUpdatedCatchupUrl` returns
its rendering (at `offset - timezoneShift` and the capped duration) with the catch-up id
substituted, or the default url when that is empty. -/
theorem near_live_format_selected (strftime : Char → Int → Str) (s : FFmpegCatchupStream)
    (timeNow dateTimeNow : Int)
    (hstart : 0 < s.m_catchupBufferStartTime)
    (hnear : s.m_catchupUrlNearLiveFormatString ≠ [])
    (hoff : s.offset = timeNow - s.m_defaultProgrammeDuration + 1)
    (hedge : s.offset < timeNow - 5) :
    s.selectedFormat timeNow = s.m_catchupUrlNearLiveFormatString ∧
    GetUpdatedCatchupUrl strftime s timeNow dateTimeNow
      = match FormatDateTime strftime dateTimeNow (s.offset - s.m_timezoneShift)
            (s.cappedDuration timeNow) s.m_catchupUrlNearLiveFormatString with
        | .error e => .error e
        | .ok formatted =>
          if s.substituteCatchupId formatted = [] then .ok s.m_defaultUrl
          else .ok (s.substituteCatchupId formatted) := by
  have hsel : s.selectedFormat timeNow = s.m_catchupUrlNearLiveFormatString := by
    unfold selectedFormat
    rw [if_pos]
    refine ⟨by omega, ?_⟩
    simpa [List.isEmpty_iff] using hnear
  refine ⟨hsel, ?_⟩
  unfold GetUpdatedCatchupUrl
  rw [if_pos ⟨hstart, hedge⟩, hsel]
  cases FormatDateTime strftime dateTimeNow (s.offset - s.m_timezoneShift)
      (s.cappedDuration timeNow) s.m_catchupUrlNearLiveFormatString with
  | error e => rfl
  | ok formatted =>
    simp only [List.isEmpty_iff]
    split <;> simp_all

/-- C5, witness: the near-live stream with default duration 100 at the instant 2000. -/
theorem near_live_format_selected_witness :
    selectedFormat (nearLiveStream 100) 2000 = "near?t={utc}".toList ∧
    GetUpdatedCatchupUrl sampleStrftime (nearLiveStream 100) 2000 2000
      = match FormatDateTime sampleStrftime 2000
            ((nearLiveStream 100).offset - (nearLiveStream 100).m_timezoneShift)
            ((nearLiveStream 100).cappedDuration 2000)
            (nearLiveStream 100).m_catchupUrlNearLiveFormatString with
        | .error e => .error e
        | .ok formatted =>
          if (nearLiveStream 100).substituteCatchupId formatted = [] then
            .ok (nearLiveStream 100).m_defaultUrl
          else .ok ((nearLiveStream 100).substituteCatchupId formatted) :=
  near_live_format_selected sampleStrftime (nearLiveStream 100) 2000 2000
    (by decide) (by decide) (by decide) (by decide)

/-- C5, counterexample: with default duration 3 the offset `now - 3 + 1` is within 5 seconds of
`now`, and the default url is returned, not the rendering of the near-live format. -/
theorem near_live_counterexample :
    0 < (nearLiveStream 3).m_catchupBufferStartTime ∧
    (nearLiveStream 3).m_catchupUrlNearLiveFormatString ≠ [] ∧
    (nearLiveStream 3).offset = 2000 - (nearLiveStream 3).m_defaultProgrammeDuration + 1 ∧
    GetUpdatedCatchupUrl sampleStrftime (nearLiveStream 3) 2000 2000
      = .ok (nearLiveStream 3).m_defaultUrl ∧
    FormatDateTime sampleStrftime 2000
        ((nearLiveStream 3).offset - (nearLiveStream 3).m_timezoneShift)
        ((nearLiveStream 3).cappedDuration 2000)
        (nearLiveStream 3).m_catchupUrlNearLiveFormatString
      = .ok "near?t=1998".toList ∧
    GetUpdatedCatchupUrl sampleStrftime (nearLiveStream 3) 2000 2000
      ≠ .ok "near?t=1998".toList := by
  decide!

/-! ## C6: totality of the time formatter -/

/-- C6, at the failing input: a scaled placeholder whose digit string does not fit an `int`
makes `FormatDateTime` raise `std::out_of_range`; the placeholder with divisor 0 is left
untouched. -/
theorem format_raises_on_oversized_divisor :
    FormatDateTime sampleStrftime 2000 1000 60 "{duration:99999999999999999999}".toList
      = .error .out_of_range ∧
    FormatDateTime sampleStrftime 2000 1000 60 "{duration:0}".toList
      = .ok "{duration:0}".toList := by
  decide!

/-! ## C7: the scaled duration placeholder -/

/-- C7, at the failing input: with duration 120 the format `dur={duration:60}0` is rendered as
`dur=20}0`, not as `dur=20`: the text of the placeholder is cut at the first `0`. -/
theorem scaled_duration_cut_short :
    FormatDateTime sampleStrftime 2000 1000 120 "dur={duration:60}0".toList
      = .ok "dur=20\x7d0".toList ∧
    "dur=".toList ++ to_string (max 0 (Int.tdiv 120 60)) ++ "0".toList = "dur=20".toList := by
  decide!

/-! ## C8: the signed offset placeholder -/

/-- C8, at the failing input: with `now = 1000` and `epochTime = 1001` the placeholder
`${offset}` is rendered as `18446744073709551615`, not as `-1`. -/
theorem offset_rendered_unsigned :
    FormatDateTime sampleStrftime 1000 1001 60 "${offset}".toList
      = .ok "18446744073709551615".toList ∧
    to_string (1000 - 1001) = "-1".toList := by
  decide!

/-! ## C9: the round trip of `{utc}` -/

/-- C9, as amended. Round trip of `{utc}`: for every non-negative `epochTime` of `time_t` (and
every duration and `now`), the format `{utc}` is rendered as a non-empty string of decimal
digits whose value is `epochTime`. -/
theorem utc_round_trip (strftime : Char → Int → Str) (dateTimeNow e d : Int)
    (h0 : 0 ≤ e) (h1 : e < 2 ^ 63) :
    ∃ out : Str, FormatDateTime strftime dateTimeNow e d "{utc}".toList = .ok out ∧
      out ≠ [] ∧ (∀ c ∈ out, c.isDigit = true) ∧ (decimalValue out : Int) = e := by
  refine ⟨formatLu e, FormatDateTime_utc strftime dateTimeNow e d, ?_, ?_, ?_⟩
  · exact toDigits_ne_nil _
  · exact toDigits_isDigit _
  · unfold formatLu
    rw [decimalValue_toDigits, Int.emod_eq_of_lt h0 (by omega)]
    exact Int.toNat_of_nonneg h0

/-- C9, witness: the epoch time 1700000000. -/
theorem utc_round_trip_witness :
    (0 : Int) ≤ 1700000000 ∧ (1700000000 : Int) < 2 ^ 63 ∧
    ∃ out : Str, FormatDateTime sampleStrftime 2000 1700000000 60 "{utc}".toList = .ok out ∧
      out ≠ [] ∧ (∀ c ∈ out, c.isDigit = true) ∧ (decimalValue out : Int) = 1700000000 :=
  ⟨by decide, by decide, utc_round_trip sampleStrftime 2000 1700000000 60 (by decide) (by decide)⟩

/-- C9, counterexample: the epoch time `-1` is rendered as `18446744073709551615`, whose value
is not `-1`. -/
theorem utc_round_trip_counterexample :
    FormatDateTime sampleStrftime 2000 (-1) 60 "{utc}".toList
      = .ok "18446744073709551615".toList ∧
    (decimalValue "18446744073709551615".toList : Int) ≠ -1 := by
  decide!

/-! ## C10: the substitution of the catch-up id -/

/-- C10, as amended. Catch-up id substitution: when `GetUpdatedCatchupUrl` takes the catch-up
branch and the rendered format is not empty, the returned url is the rendered format itself if
the catch-up id is empty, and the rendered format with every occurrence of `{catchup-id}`
replaced by the id verbatim if the id is not empty and has no dollar sign. -/
theorem catchup_id_substitution (strftime : Char → Int → Str) (s : FFmpegCatchupStream)
    (timeNow dateTimeNow : Int) (formatted : Str)
    (hstart : 0 < s.m_catchupBufferStartTime) (hedge : s.offset < timeNow - 5)
    (hf : FormatDateTime strftime dateTimeNow (s.offset - s.m_timezoneShift)
      (s.cappedDuration timeNow) (s.selectedFormat timeNow) = .ok formatted)
    (hne : formatted ≠ []) (hdollar : '$' ∉ s.m_programmeCatchupId) :
    GetUpdatedCatchupUrl strftime s timeNow dateTimeNow
      = .ok (if s.m_programmeCatchupId = [] then formatted
             else replaceAllVerbatim CATCHUP_ID s.m_programmeCatchupId formatted) := by
  unfold GetUpdatedCatchupUrl
  rw [if_pos ⟨hstart, hedge⟩, hf]
  simp only [substituteCatchupId, List.isEmpty_iff]
  by_cases hid : s.m_programmeCatchupId = []
  · simp [hid, hne]
  · have hv := replaceAllVerbatimGo_ne_nil CATCHUP_ID s.m_programmeCatchupId hid
      (formatted.length + 1) formatted hne
    simp only [hid, not_false_eq_true, if_true, if_false,
      regex_replace_eq_verbatim formatted _ hdollar]
    rw [if_pos]
    exact hv

/-- C10, witness: a format with two occurrences of `{catchup-id}` and the id `ab12`. -/
theorem catchup_id_substitution_witness :
    GetUpdatedCatchupUrl sampleStrftime
        (catchupIdStream "id={catchup-id}&x={catchup-id}".toList "ab12".toList) 2000 2000
      = .ok (if (catchupIdStream "id={catchup-id}&x={catchup-id}".toList
                  "ab12".toList).m_programmeCatchupId = []
             then "id={catchup-id}&x={catchup-id}".toList
             else replaceAllVerbatim CATCHUP_ID
                (catchupIdStream "id={catchup-id}&x={catchup-id}".toList
                  "ab12".toList).m_programmeCatchupId
                "id={catchup-id}&x={catchup-id}".toList) :=
  catchup_id_substitution sampleStrftime
    (catchupIdStream "id={catchup-id}&x={catchup-id}".toList "ab12".toList) 2000 2000
    "id={catchup-id}&x={catchup-id}".toList (by decide) (by decide) (by decide!) (by decide)
    (by decide)

/-- C10, counterexample: with an empty format and no id the catch-up branch returns the default
url, not the (empty) rendered format; and the id `$&` is not substituted verbatim, the
occurrence of `{catchup-id}` is replaced by itself. -/
theorem catchup_id_counterexample :
    (0 < (catchupIdStream [] []).m_catchupBufferStartTime ∧
      (catchupIdStream [] []).offset < 2000 - 5 ∧
      FormatDateTime sampleStrftime 2000
          ((catchupIdStream [] []).offset - (catchupIdStream [] []).m_timezoneShift)
          ((catchupIdStream [] []).cappedDuration 2000)
          ((catchupIdStream [] []).selectedFormat 2000) = .ok [] ∧
      GetUpdatedCatchupUrl sampleStrftime (catchupIdStream [] []) 2000 2000
        = .ok "live.m3u8".toList) ∧
    (0 < (catchupIdStream "id={catchup-id}".toList "$&".toList).m_catchupBufferStartTime ∧
      (catchupIdStream "id={catchup-id}".toList "$&".toList).offset < 2000 - 5 ∧
      FormatDateTime sampleStrftime 2000
          ((catchupIdStream "id={catchup-id}".toList "$&".toList).offset
            - (catchupIdStream "id={catchup-id}".toList "$&".toList).m_timezoneShift)
          ((catchupIdStream "id={catchup-id}".toList "$&".toList).cappedDuration 2000)
          ((catchupIdStream "id={catchup-id}".toList "$&".toList).selectedFormat 2000)
        = .ok "id={catchup-id}".toList ∧
      replaceAllVerbatim CATCHUP_ID "$&".toList "id={catchup-id}".toList = "id=$&".toList ∧
      GetUpdatedCatchupUrl sampleStrftime
          (catchupIdStream "id={catchup-id}".toList "$&".toList) 2000 2000
        = .ok "id={catchup-id}".toList) := by
  decide!

/-! ## Lemmas on the methods that drive the pipeline -/

theorem DemuxRead_frame {σ : Type} (pl : Pipeline σ) (s : FFmpegCatchupStream) (p : σ) :
    (DemuxRead pl s p).1 = { s with m_currentDemuxTime := (DemuxRead pl s p).1.m_currentDemuxTime } ∧
    (DemuxRead pl s p).2.1 = (pl.DemuxRead p).1 := by
  unfold DemuxRead
  rcases h : pl.DemuxRead p with ⟨p1, _ | pkt⟩
  · exact ⟨rfl, rfl⟩
  · exact ⟨rfl, rfl⟩

theorem readPackets_frame {σ : Type} (pl : Pipeline σ) (n : Nat) :
    ∀ (s : FFmpegCatchupStream) (p : σ),
      (readPackets pl n s p).1
        = { s with m_currentDemuxTime := (readPackets pl n s p).1.m_currentDemuxTime } := by
  induction n with
  | zero => intro s p; rfl
  | succ n ih =>
    intro s p
    have h1 := (DemuxRead_frame pl s p).1
    have h2 := ih (DemuxRead pl s p).1 (DemuxRead pl s p).2.1
    simp only [readPackets]
    rw [h2]
    generalize (readPackets pl n (DemuxRead pl s p).1 (DemuxRead pl s p).2.1).1.m_currentDemuxTime
      = t
    rw [h1]

theorem DemuxSetSpeed_pause {σ : Type} (pl : Pipeline σ) (strftime : Char → Int → Str)
    (s : FFmpegCatchupStream) (p : σ) (timeNow urlTimeNow dateTimeNow : Int)
    (hplaying : pl.IsPaused p = false) :
    DemuxSetSpeed pl strftime s p timeNow urlTimeNow dateTimeNow DVD_PLAYSPEED_PAUSE
      = ⟨{ s with m_pauseStartTime := s.m_currentDemuxTime },
          pl.DemuxSetSpeed p DVD_PLAYSPEED_PAUSE, .ok ()⟩ := by
  unfold DemuxSetSpeed
  simp [hplaying]

theorem pauseThenRead_pauseStartTime {σ : Type} (pl : Pipeline σ) (strftime : Char → Int → Str)
    (s : FFmpegCatchupStream) (p : σ) (timeNow urlTimeNow dateTimeNow : Int) (n : Nat)
    (hplaying : pl.IsPaused p = false) :
    (pauseThenRead pl strftime s p timeNow urlTimeNow dateTimeNow n).1.m_pauseStartTime
      = s.m_currentDemuxTime := by
  unfold pauseThenRead
  rw [readPackets_frame, DemuxSetSpeed_pause pl strftime s p timeNow urlTimeNow dateTimeNow hplaying]

theorem SeekCatchupStream_isOpening (strftime : Char → Int → Str) (s : FFmpegCatchupStream)
    (timeNow urlTimeNow dateTimeNow : Int) (timeMs : ℚ) (whence : Int) :
    (SeekCatchupStream strftime s timeNow urlTimeNow dateTimeNow timeMs whence).1.m_isOpeningStream
      = s.m_isOpeningStream := by
  unfold SeekCatchupStream
  split
  · split
    · simp only []
      split <;> rfl
    · split <;> rfl
  · rfl

theorem SeekCatchupStream_inactive (strftime : Char → Int → Str) (s : FFmpegCatchupStream)
    (timeNow urlTimeNow dateTimeNow : Int) (timeMs : ℚ) (whence : Int)
    (hstart : s.m_catchupBufferStartTime ≤ 0) :
    SeekCatchupStream strftime s timeNow urlTimeNow dateTimeNow timeMs whence
      = (s, .ok (-1)) := by
  unfold SeekCatchupStream
  rw [if_neg (by omega)]

theorem SeekCatchupStream_other (strftime : Char → Int → Str) (s : FFmpegCatchupStream)
    (timeNow urlTimeNow dateTimeNow : Int) (timeMs : ℚ) (whence : Int)
    (hset : whence ≠ SEEK_SET) (hcur : whence ≠ SEEK_CUR) :
    SeekCatchupStream strftime s timeNow urlTimeNow dateTimeNow timeMs whence
      = (s, .ok (-1)) := by
  unfold SeekCatchupStream
  simp only [if_neg hset, if_neg hcur]
  split <;> rfl

theorem DemuxSeekTime_of_seek {σ : Type} (pl : Pipeline σ) (strftime : Char → Int → Str)
    (s : FFmpegCatchupStream) (p : σ) (timeNow urlTimeNow dateTimeNow : Int) (timeMs : ℚ)
    (s1 : FFmpegCatchupStream) (seekResult : Int) (hms : 0 ≤ timeMs)
    (hseek : SeekCatchupStream strftime s timeNow urlTimeNow dateTimeNow timeMs
      (if s.m_isOpeningStream then SEEK_CUR else SEEK_SET) = (s1, .ok seekResult)) :
    DemuxSeekTime pl strftime s p timeNow urlTimeNow dateTimeNow timeMs
      = if seekResult ≥ 0 then
          if s.m_isOpeningStream = true then
            ⟨{ s1 with m_seekOffset := (seekResult : ℚ) }, p, .ok true⟩
          else
            ⟨{ s1 with m_seekOffset := (seekResult : ℚ) }, (pl.DemuxReset p s1.m_streamUrl).1,
              .ok (pl.DemuxReset p s1.m_streamUrl).2⟩
        else ⟨s1, p, .ok false⟩ := by
  have hopen : s1.m_isOpeningStream = s.m_isOpeningStream := by
    have h := SeekCatchupStream_isOpening strftime s timeNow urlTimeNow dateTimeNow timeMs
      (if s.m_isOpeningStream then SEEK_CUR else SEEK_SET)
    rw [hseek] at h
    exact h
  unfold DemuxSeekTime
  rw [if_neg (by linarith), hseek]
  simp only [hopen]
  split
  · cases hs : s.m_isOpeningStream <;> simp
  · rfl

theorem log2Fuel_eq (fuel : Nat) : ∀ n : Nat, n ≤ fuel → log2Fuel fuel n = Nat.log2 n := by
  induction fuel with
  | zero =>
    intro n hn
    have : n = 0 := by omega
    subst this
    rw [Nat.log2]
    simp [log2Fuel]
  | succ fuel ih =>
    intro n hn
    rw [Nat.log2]
    unfold log2Fuel
    by_cases h : n < 2
    · rw [if_pos h, if_neg (by omega)]
    · rw [if_neg h, if_pos (by omega), ih (n / 2) (by omega)]

theorem floorLog2_eq (n : Nat) : floorLog2 n = Nat.log2 n :=
  log2Fuel_eq n n (le_refl n)

theorem floorLog2_one : floorLog2 1 = 0 := by decide

theorem roundHalfEven_of_dvd (n d : Nat) (hd : 0 < d) (h : d ∣ n) :
    roundHalfEven n d = n / d := by
  unfold roundHalfEven
  rw [Nat.mod_eq_zero_of_dvd h, if_pos (by omega)]

theorem roundDouble_natCast (n : Nat) (h : 2 ^ (floorLog2 n - 52) ∣ n) :
    roundDouble (n : ℚ) = n := by
  by_cases hn : n = 0
  · subst hn
    simp [roundDouble]
  have hx : (n : ℚ) ≠ 0 := by exact_mod_cast hn
  have hpos : ¬ (n : ℚ) < 0 := by
    have : (0 : ℚ) ≤ n := Nat.cast_nonneg n
    exact not_lt.mpr this
  have hlog : 2 ^ floorLog2 n ≤ n := by
    rw [floorLog2_eq]
    exact Nat.log2_self_le hn
  have he : ulpExponent n 1 = (floorLog2 n : Int) - 52 := by
    unfold ulpExponent
    simp only [floorLog2_one, Int.ofNat_zero, sub_zero, Int.toNat_ofNat, one_mul]
    have h0 : (-(floorLog2 n : Int)).toNat = 0 := by omega
    rw [h0, pow_zero, mul_one, if_pos hlog]
    omega
  unfold roundDouble
  rw [if_neg hx]
  simp only [Rat.num_natCast, Int.natAbs_ofNat, Rat.den_natCast, he, one_mul, if_neg hpos]
  have h1 : ((floorLog2 n : Int) - 52).toNat = floorLog2 n - 52 := by omega
  have h2 : (-((floorLog2 n : Int) - 52)).toNat = 52 - floorLog2 n := by omega
  rw [h1, h2]
  have hb : 0 < 2 ^ (floorLog2 n - 52) := Nat.pos_pow_of_pos _ (by decide)
  have hdvd : 2 ^ (floorLog2 n - 52) ∣ n * 2 ^ (52 - floorLog2 n) := Dvd.dvd.mul_right h _
  rw [roundHalfEven_of_dvd _ _ hb hdvd, Nat.div_mul_cancel hdvd]
  have ha : ((2 ^ (52 - floorLog2 n) : Nat) : ℚ) ≠ 0 := by positivity
  rw [Nat.cast_mul, mul_div_assoc, div_self ha, mul_one]

theorem roundDouble_natCast_of_dvd (n j : Nat) (hd : 2 ^ j ∣ n) (hlt : n < 2 ^ (53 + j)) :
    roundDouble (n : ℚ) = n := by
  apply roundDouble_natCast
  by_cases hn : n = 0
  · subst hn
    exact dvd_zero _
  have hlog : floorLog2 n < 53 + j := by
    rw [floorLog2_eq]
    exact (Nat.log2_lt hn).mpr hlt
  exact dvd_trans (pow_dvd_pow 2 (by omega)) hd

theorem roundDouble_neg (x : ℚ) : roundDouble (-x) = -roundDouble x := by
  by_cases hx : x = 0
  · subst hx
    simp [roundDouble]
  have hnx : -x ≠ 0 := neg_ne_zero.mpr hx
  unfold roundDouble
  rw [if_neg hx, if_neg hnx]
  simp only [Rat.num_neg_eq_neg_num, Int.natAbs_neg, Rat.neg_den, Left.neg_neg_iff]
  rcases lt_or_gt_of_ne hx with h | h
  · rw [if_neg (not_lt.mpr (le_of_lt h)), if_pos h, neg_neg]
  · rw [if_pos h, if_neg (not_lt.mpr (le_of_lt h))]

theorem roundDouble_intCast_of_dvd (z : Int) (j : Nat) (hd : 2 ^ j ∣ z.natAbs)
    (hlt : z.natAbs < 2 ^ (53 + j)) : roundDouble (z : ℚ) = z := by
  rcases Int.natAbs_eq z with h | h
  · rw [h]
    simp only [Int.cast_natCast, Int.natAbs_ofNat]
    exact roundDouble_natCast_of_dvd _ j hd hlt
  · rw [h]
    simp only [Int.cast_neg, Int.cast_natCast, Int.natAbs_neg, Int.natAbs_ofNat]
    rw [roundDouble_neg, roundDouble_natCast_of_dvd _ j hd hlt]

theorem roundDouble_intCast (z : Int) (h : z.natAbs ≤ 2 ^ 53) : roundDouble (z : ℚ) = z := by
  by_cases h53 : z.natAbs = 2 ^ 53
  · exact roundDouble_intCast_of_dvd z 1 (by rw [h53]; exact ⟨2 ^ 52, by norm_num⟩)
      (by rw [h53]; norm_num)
  · exact roundDouble_intCast_of_dvd z 0 (by simp) (by omega)

theorem double_add_intCast (a b : Int) (h : (a + b).natAbs ≤ 2 ^ 53) :
    double_add (a : ℚ) (b : ℚ) = ((a + b : Int) : ℚ) := by
  unfold double_add
  rw [← Int.cast_add]
  exact roundDouble_intCast _ h

/-! ## Lemmas on the length and the duration -/

theorem static_cast_int64_intCast (n : Int) (hlo : -2 ^ 63 ≤ n) (hhi : n < 2 ^ 63) :
    static_cast_int64 (n : ℚ) = n := by
  unfold static_cast_int64 INT64_MIN
  simp only [Rat.intCast_num, Rat.intCast_den, Nat.cast_one, Int.tdiv_one]
  rw [if_pos ⟨by omega, hhi⟩]

theorem ticks_exact (E : Int) (h : E.natAbs * 1000000 < 2 ^ 59) :
    double_mul (int64_to_double E) (int64_to_double DVD_TIME_BASE)
      = ((E * 1000000 : Int) : ℚ) := by
  unfold double_mul int64_to_double DVD_TIME_BASE
  rw [roundDouble_intCast E (by omega), roundDouble_intCast 1000000 (by decide),
    ← Int.cast_mul]
  apply roundDouble_intCast_of_dvd (E * 1000000) 6
  · rw [Int.natAbs_mul]
    exact Dvd.dvd.mul_left ⟨15625, by decide⟩ _
  · rw [Int.natAbs_mul]
    exact h

theorem GetTimes_of_ne_zero (s : FFmpegCatchupStream) (now : Int) (times : INPUTSTREAM_TIMES)
    (hstart : s.m_catchupBufferStartTime ≠ 0)
    (hE : (endOffset s now).natAbs * 1000000 < 2 ^ 59) :
    GetTimes s now times
      = (true, ⟨s.m_catchupBufferStartTime, 0, 0, ((endOffset s now * 1000000 : Int) : ℚ)⟩) := by
  unfold GetTimes
  rw [if_neg hstart]
  unfold endOffset at hE ⊢
  by_cases h : s.m_playbackAsLive = true
  · rw [if_pos h] at hE
    simp only [if_pos h]
    rw [ticks_exact _ hE]
  · rw [if_neg h] at hE
    simp only [if_neg h]
    rw [ticks_exact _ hE]

theorem GetTimes_of_zero (s : FFmpegCatchupStream) (now : Int) (times : INPUTSTREAM_TIMES)
    (hstart : s.m_catchupBufferStartTime = 0) : GetTimes s now times = (false, times) := by
  unfold GetTimes
  rw [if_pos hstart]

theorem GetUpdatedCatchupUrl_catchup (strftime : Char → Int → Str) (s : FFmpegCatchupStream)
    (timeNow dateTimeNow : Int) (hstart : 0 < s.m_catchupBufferStartTime)
    (hedge : s.offset < timeNow - 5) :
    GetUpdatedCatchupUrl strftime s timeNow dateTimeNow
      = returnedUrl s (FormatDateTime strftime dateTimeNow (s.offset - s.m_timezoneShift)
          (s.cappedDuration timeNow) (s.selectedFormat timeNow)) := by
  unfold GetUpdatedCatchupUrl returnedUrl
  rw [if_pos ⟨hstart, hedge⟩]
  cases FormatDateTime strftime dateTimeNow (s.offset - s.m_timezoneShift)
      (s.cappedDuration timeNow) (s.selectedFormat timeNow) with
  | error e => rfl
  | ok formatted =>
    simp only [List.isEmpty_iff]
    split <;> simp_all

theorem GetUpdatedCatchupUrl_default (strftime : Char → Int → Str) (s : FFmpegCatchupStream)
    (timeNow dateTimeNow : Int)
    (h : s.m_catchupBufferStartTime ≤ 0 ∨ s.offset ≥ timeNow - 5) :
    GetUpdatedCatchupUrl strftime s timeNow dateTimeNow = .ok s.m_defaultUrl := by
  unfold GetUpdatedCatchupUrl
  rw [if_neg (by omega)]

/-! ## C11: pause and resume -/

/-- C11. Pause and resume: when `DemuxSetSpeed(0)` is called on a playing stream whose current
demux time is `P`, and any number of packets are read, the recorded pause time is still `P` and
the stream is as much in its opening phase as before; a `DemuxSetSpeed(speed)` with
`speed != 0` on the then paused stream does what one `DemuxSeekTime(P)` does (an absolute seek
when the stream is not opening), followed by the change of speed in the pipeline. A speed
request that is neither a resume while paused nor a pause while playing only changes the speed
in the pipeline: no seek, and the stream is as it was. -/
theorem pause_resume_seeks_pause_time {σ : Type} (pl : Pipeline σ)
    (strftime : Char → Int → Str) (s : FFmpegCatchupStream) (p : σ)
    (timeNow urlTimeNow dateTimeNow : Int) (n : Nat)
    (resumeNow resumeUrlNow resumeDateTimeNow : Int) (speed : Int)
    (hplaying : pl.IsPaused p = false)
    (hpaused : pl.IsPaused (pauseThenRead pl strftime s p timeNow urlTimeNow dateTimeNow n).2
      = true)
    (hspeed : speed ≠ DVD_PLAYSPEED_PAUSE) :
    (pauseThenRead pl strftime s p timeNow urlTimeNow dateTimeNow n).1.m_pauseStartTime
      = s.m_currentDemuxTime ∧
    (pauseThenRead pl strftime s p timeNow urlTimeNow dateTimeNow n).1.m_isOpeningStream
      = s.m_isOpeningStream ∧
    DemuxSetSpeed pl strftime
        (pauseThenRead pl strftime s p timeNow urlTimeNow dateTimeNow n).1
        (pauseThenRead pl strftime s p timeNow urlTimeNow dateTimeNow n).2
        resumeNow resumeUrlNow resumeDateTimeNow speed
      = (match (DemuxSeekTime pl strftime
            (pauseThenRead pl strftime s p timeNow urlTimeNow dateTimeNow n).1
            (pauseThenRead pl strftime s p timeNow urlTimeNow dateTimeNow n).2
            resumeNow resumeUrlNow resumeDateTimeNow s.m_currentDemuxTime).result with
        | .error e =>
          ⟨(DemuxSeekTime pl strftime
              (pauseThenRead pl strftime s p timeNow urlTimeNow dateTimeNow n).1
              (pauseThenRead pl strftime s p timeNow urlTimeNow dateTimeNow n).2
              resumeNow resumeUrlNow resumeDateTimeNow s.m_currentDemuxTime).stream,
            (DemuxSeekTime pl strftime
              (pauseThenRead pl strftime s p timeNow urlTimeNow dateTimeNow n).1
              (pauseThenRead pl strftime s p timeNow urlTimeNow dateTimeNow n).2
              resumeNow resumeUrlNow resumeDateTimeNow s.m_currentDemuxTime).pipeline,
            .error e⟩
        | .ok _ =>
          ⟨(DemuxSeekTime pl strftime
              (pauseThenRead pl strftime s p timeNow urlTimeNow dateTimeNow n).1
              (pauseThenRead pl strftime s p timeNow urlTimeNow dateTimeNow n).2
              resumeNow resumeUrlNow resumeDateTimeNow s.m_currentDemuxTime).stream,
            pl.DemuxSetSpeed (DemuxSeekTime pl strftime
              (pauseThenRead pl strftime s p timeNow urlTimeNow dateTimeNow n).1
              (pauseThenRead pl strftime s p timeNow urlTimeNow dateTimeNow n).2
              resumeNow resumeUrlNow resumeDateTimeNow s.m_currentDemuxTime).pipeline speed,
            .ok ()⟩) ∧
    (∀ (s' : FFmpegCatchupStream) (p' : σ) (speed' : Int),
      ¬ (pl.IsPaused p' = true ∧ speed' ≠ DVD_PLAYSPEED_PAUSE) →
      ¬ (pl.IsPaused p' = false ∧ speed' = DVD_PLAYSPEED_PAUSE) →
      DemuxSetSpeed pl strftime s' p' resumeNow resumeUrlNow resumeDateTimeNow speed'
        = ⟨s', pl.DemuxSetSpeed p' speed', .ok ()⟩) := by
  have hP := pauseThenRead_pauseStartTime pl strftime s p timeNow urlTimeNow dateTimeNow n
    hplaying
  refine ⟨hP, ?_, ?_, ?_⟩
  · unfold pauseThenRead
    rw [readPackets_frame,
      DemuxSetSpeed_pause pl strftime s p timeNow urlTimeNow dateTimeNow hplaying]
  · rw [← hP]
    unfold DemuxSetSpeed
    rw [if_pos ⟨hpaused, hspeed⟩]
  · intro s' p' speed' h1 h2
    unfold DemuxSetSpeed
    rw [if_neg h1, if_neg (by simpa using h2)]

/-- C11, witness: the playing stream is paused at 1803000 ms, two packets are read, which move
the current demux time to 1806000 ms, and the stream is resumed at the speed 1000. -/
theorem pause_resume_seeks_pause_time_witness :
    (pauseThenRead samplePipeline sampleStrftime playingStream playingPipeline
        102000 102000 102000 2).1.m_currentDemuxTime = 1806000 ∧
    (DemuxSetSpeed samplePipeline sampleStrftime
        (pauseThenRead samplePipeline sampleStrftime playingStream playingPipeline
          102000 102000 102000 2).1
        (pauseThenRead samplePipeline sampleStrftime playingStream playingPipeline
          102000 102000 102000 2).2
        102100 102100 102100 1000).stream.m_catchupBufferOffset = 1803 ∧
    (DemuxSetSpeed samplePipeline sampleStrftime
        (pauseThenRead samplePipeline sampleStrftime playingStream playingPipeline
          102000 102000 102000 2).1
        (pauseThenRead samplePipeline sampleStrftime playingStream playingPipeline
          102000 102000 102000 2).2
        102100 102100 102100 1000).pipeline.resets.length = 1 ∧
    (pauseThenRead samplePipeline sampleStrftime playingStream playingPipeline
        102000 102000 102000 2).1.m_pauseStartTime = playingStream.m_currentDemuxTime :=
  ⟨by decide!, by decide!, by decide!,
    (pause_resume_seeks_pause_time samplePipeline sampleStrftime playingStream playingPipeline
      102000 102000 102000 2 102100 102100 102100 1000 (by decide) (by decide!) (by decide)).1⟩

/-! ## C12: the result of a seek, without rollback -/

/-- C12. Seek result without rollback: for an absolute seek (the stream is not opening,
`timeMs >= 0`) whose `SeekCatchupStream` returns a value `>= 0`, `DemuxSeekTime` leaves the
pipeline as one `DemuxReset` at the new url leaves it and returns the outcome of that reset;
whatever the outcome, the stream keeps the newly resolved offset and url, and the seek offset
is the value returned by `SeekCatchupStream`. -/
theorem seek_result_no_rollback {σ : Type} (pl : Pipeline σ) (strftime : Char → Int → Str)
    (s : FFmpegCatchupStream) (p : σ) (timeNow urlTimeNow dateTimeNow : Int) (timeMs : ℚ)
    (s1 : FFmpegCatchupStream) (seekResult : Int)
    (hopen : s.m_isOpeningStream = false) (hms : 0 ≤ timeMs)
    (hseek : SeekCatchupStream strftime s timeNow urlTimeNow dateTimeNow timeMs SEEK_SET
      = (s1, .ok seekResult))
    (hres : 0 ≤ seekResult) :
    DemuxSeekTime pl strftime s p timeNow urlTimeNow dateTimeNow timeMs
      = ⟨{ s1 with m_seekOffset := (seekResult : ℚ) }, (pl.DemuxReset p s1.m_streamUrl).1,
          .ok (pl.DemuxReset p s1.m_streamUrl).2⟩ ∧
    (DemuxSeekTime pl strftime s p timeNow urlTimeNow dateTimeNow
        timeMs).stream.m_catchupBufferOffset = s1.m_catchupBufferOffset ∧
    (DemuxSeekTime pl strftime s p timeNow urlTimeNow dateTimeNow
        timeMs).stream.m_streamUrl = s1.m_streamUrl ∧
    (DemuxSeekTime pl strftime s p timeNow urlTimeNow dateTimeNow
        timeMs).stream.m_seekOffset = (seekResult : ℚ) := by
  have h := DemuxSeekTime_of_seek pl strftime s p timeNow urlTimeNow dateTimeNow timeMs s1
    seekResult hms (by rw [hopen]; exact hseek)
  rw [if_pos hres, hopen, if_neg (by decide)] at h
  rw [h]
  exact ⟨rfl, rfl, rfl, rfl⟩

/-- C12, witness: the playing stream seeks to 1803000 ms on a pipeline whose reset fails: the
call returns `false`, the pipeline was reset once, and the stream has the new offset 1803. -/
theorem seek_result_no_rollback_witness :
    (DemuxSeekTime samplePipeline sampleStrftime playingStream
        { playingPipeline with resetSucceeds := false } 102100 102100 102100 1803000).result
      = .ok false ∧
    (DemuxSeekTime samplePipeline sampleStrftime playingStream
        { playingPipeline with resetSucceeds := false } 102100 102100 102100
        1803000).pipeline.resets = ["vod?start=101803&dur=297".toList] ∧
    (DemuxSeekTime samplePipeline sampleStrftime playingStream
        { playingPipeline with resetSucceeds := false } 102100 102100 102100
        1803000).stream.m_catchupBufferOffset
      = (SeekCatchupStream sampleStrftime playingStream 102100 102100 102100 1803000
          SEEK_SET).1.m_catchupBufferOffset :=
  ⟨by decide!, by decide!,
    (seek_result_no_rollback samplePipeline sampleStrftime playingStream
      { playingPipeline with resetSucceeds := false } 102100 102100 102100 1803000
      (SeekCatchupStream sampleStrftime playingStream 102100 102100 102100 1803000 SEEK_SET).1
      1803000000 (by decide) (by norm_num) (by decide!) (by decide)).2.1⟩

/-! ## C13: unsupported seeks -/

/-- C13. Unsupported seeks fail atomically: when `timeMs < 0` or catch-up mode is inactive,
`DemuxSeekTime` returns `false` and leaves the stream and the pipeline as they were; and
`SeekCatchupStream` with a `whence` other than `SEEK_SET` and `SEEK_CUR` returns `-1` and
leaves the stream as it was. -/
theorem unsupported_seek_atomic {σ : Type} (pl : Pipeline σ) (strftime : Char → Int → Str)
    (s : FFmpegCatchupStream) (p : σ) (timeNow urlTimeNow dateTimeNow : Int) (timeMs : ℚ) :
    (timeMs < 0 ∨ s.m_catchupBufferStartTime ≤ 0 →
      DemuxSeekTime pl strftime s p timeNow urlTimeNow dateTimeNow timeMs
        = ⟨s, p, .ok false⟩) ∧
    (∀ whence : Int, whence ≠ SEEK_SET → whence ≠ SEEK_CUR →
      SeekCatchupStream strftime s timeNow urlTimeNow dateTimeNow timeMs whence
        = (s, .ok (-1))) := by
  constructor
  · intro h
    by_cases hms : timeMs < 0
    · unfold DemuxSeekTime
      rw [if_pos hms]
    · have hstart : s.m_catchupBufferStartTime ≤ 0 := by
        rcases h with h | h
        · exact absurd h hms
        · exact h
      unfold DemuxSeekTime
      rw [if_neg hms, SeekCatchupStream_inactive strftime s _ _ _ _ _ hstart]
      simp
  · intro whence hset hcur
    exact SeekCatchupStream_other strftime s _ _ _ _ whence hset hcur

/-- C13, witness: a negative time on the playing stream, a seek on the stream without catch-up
mode, and the `whence` value 2 (`SEEK_END`). -/
theorem unsupported_seek_atomic_witness :
    DemuxSeekTime samplePipeline sampleStrftime playingStream playingPipeline
        102100 102100 102100 (-1) = ⟨playingStream, playingPipeline, .ok false⟩ ∧
    DemuxSeekTime samplePipeline sampleStrftime plainStream playingPipeline
        102100 102100 102100 5000 = ⟨plainStream, playingPipeline, .ok false⟩ ∧
    SeekCatchupStream sampleStrftime playingStream 102100 102100 102100 5000 2
      = (playingStream, .ok (-1)) :=
  ⟨(unsupported_seek_atomic samplePipeline sampleStrftime playingStream playingPipeline
      102100 102100 102100 (-1)).1 (Or.inl (by norm_num)),
    (unsupported_seek_atomic samplePipeline sampleStrftime plainStream playingPipeline
      102100 102100 102100 5000).1 (Or.inr (by decide)),
    (unsupported_seek_atomic samplePipeline sampleStrftime playingStream playingPipeline
      102100 102100 102100 5000).2 2 (by decide) (by decide)⟩

/-! ## C14: the length of the stream -/

/-- C14, as amended. Stream length: `LengthStream` returns `-1` when `bufferStartTime <= 0` or
`bufferEndTime < bufferStartTime`; otherwise, with `E` the end of the stream in seconds from
the start of the buffer and `|E| * 1000000 < 2^59` (where every multiple of 1000000 is a
`double`), it returns `E * 1000000` if `E >= 0` and `-1` if `E < 0`. Under the same bound and
with `bufferStartTime` other than 0, `GetTimes` succeeds and reports
`startTime = bufferStartTime`, `ptsStart = ptsBegin = 0` and `ptsEnd = E * 1000000`; when
`bufferStartTime` is 0, `GetTimes` returns `false` and leaves `times` as it was. -/
theorem stream_length (s : FFmpegCatchupStream) (now : Int) :
    (s.m_catchupBufferStartTime ≤ 0 ∨ s.m_catchupBufferEndTime < s.m_catchupBufferStartTime →
      LengthStream s now = -1) ∧
    (0 < s.m_catchupBufferStartTime → s.m_catchupBufferStartTime ≤ s.m_catchupBufferEndTime →
      (endOffset s now).natAbs * 1000000 < 2 ^ 59 →
      LengthStream s now = (if 0 ≤ endOffset s now then endOffset s now * 1000000 else -1)) ∧
    (s.m_catchupBufferStartTime ≠ 0 → (endOffset s now).natAbs * 1000000 < 2 ^ 59 →
      ∀ times : INPUTSTREAM_TIMES, GetTimes s now times
        = (true,
            ⟨s.m_catchupBufferStartTime, 0, 0, ((endOffset s now * 1000000 : Int) : ℚ)⟩)) ∧
    (s.m_catchupBufferStartTime = 0 →
      ∀ times : INPUTSTREAM_TIMES, GetTimes s now times = (false, times)) := by
  refine ⟨?_, ?_, fun h hE times => GetTimes_of_ne_zero s now times h hE,
    fun h times => GetTimes_of_zero s now times h⟩
  · intro h
    unfold LengthStream
    rw [if_neg (by omega)]
  · intro h1 h2 hB
    unfold LengthStream
    rw [if_pos ⟨h1, h2⟩, GetTimes_of_ne_zero s now _ (by omega) hB]
    simp only [ge_iff_le, true_and]
    by_cases hE : 0 ≤ endOffset s now
    · have hq : (0 : ℚ) ≤ ((endOffset s now * 1000000 : Int) : ℚ) := by
        exact_mod_cast (by omega : 0 ≤ endOffset s now * 1000000)
      have hsub : double_sub (((endOffset s now * 1000000 : Int) : ℚ)) 0
          = ((endOffset s now * 1000000 : Int) : ℚ) := by
        unfold double_sub
        rw [sub_zero]
        apply roundDouble_intCast_of_dvd (endOffset s now * 1000000) 6
        · rw [Int.natAbs_mul]
          exact Dvd.dvd.mul_left ⟨15625, by decide⟩ _
        · rw [Int.natAbs_mul]
          exact hB
      rw [if_pos hq, if_pos hE, hsub, static_cast_int64_intCast _ (by omega) (by omega)]
    · have hq : ¬ (0 : ℚ) ≤ ((endOffset s now * 1000000 : Int) : ℚ) := by
        intro h
        have : 0 ≤ endOffset s now * 1000000 := by exact_mod_cast h
        omega
      rw [if_neg hq, if_neg hE]

/-- C14, witness: the playing stream, whose buffer runs from 100000 to 103600, at the instant
102000, and the stream without catch-up mode. -/
theorem stream_length_witness :
    LengthStream plainStream 102000 = -1 ∧
    LengthStream playingStream 102000
      = (if 0 ≤ endOffset playingStream 102000 then endOffset playingStream 102000 * 1000000
         else -1) ∧
    endOffset playingStream 102000 = 2000 ∧
    LengthStream playingStream 102000 = 2000000000 :=
  ⟨(stream_length plainStream 102000).1 (Or.inl (by decide)),
    (stream_length playingStream 102000).2.1 (by decide) (by decide) (by decide), by decide,
    by decide!⟩

/-- C14, counterexample: with `bufferStartTime = 0`, `GetTimes` returns `false` and reports
nothing: `times` is as it was. With `playbackAsLive` and `E = 9223372036855`, the product
`E * 1000000` does not fit `int64_t` and `LengthStream` returns `INT64_MIN`. With
`E = 576460752305`, the product is not a `double` and `LengthStream` returns
`576460752304999936`. -/
theorem stream_length_counterexample :
    GetTimes { playingStream with m_catchupBufferStartTime := 0 } 5000 ⟨7, 7, 7, 7⟩
      = (false, ⟨7, 7, 7, 7⟩) ∧
    0 < ({ playingStream with m_playbackAsLive := true } :
      FFmpegCatchupStream).m_catchupBufferStartTime ∧
    ({ playingStream with m_playbackAsLive := true } :
        FFmpegCatchupStream).m_catchupBufferStartTime
      ≤ ({ playingStream with m_playbackAsLive := true } :
        FFmpegCatchupStream).m_catchupBufferEndTime ∧
    endOffset { playingStream with m_playbackAsLive := true } (100000 + 9223372036855)
      = 9223372036855 ∧
    LengthStream { playingStream with m_playbackAsLive := true } (100000 + 9223372036855)
      = -9223372036854775808 ∧
    endOffset { playingStream with m_playbackAsLive := true } (100000 + 576460752305)
      = 576460752305 ∧
    LengthStream { playingStream with m_playbackAsLive := true } (100000 + 576460752305)
      = 576460752304999936 ∧
    (576460752304999936 : Int) ≠ 576460752305 * 1000000 := by
  decide!

/-! ## C15: the duration of the programme -/

/-- C15, as amended. Programme duration selection uses the closed interval: the duration chosen
before clamping is `programmeEndTime - programmeStartTime` exactly when
`0 < programmeStartTime < programmeEndTime` and
`programmeStartTime <= offset <= programmeEndTime`, and the default duration otherwise; in
particular it is the duration of the programme when `offset = programmeEndTime`. In the
catch-up branch `GetUpdatedCatchupUrl` renders the format with this duration, capped to
`now`. -/
theorem programme_duration_selection (strftime : Char → Int → Str) (s : FFmpegCatchupStream)
    (timeNow dateTimeNow : Int) (hstart : 0 < s.m_catchupBufferStartTime)
    (hedge : s.offset < timeNow - 5) :
    s.programmeDuration
      = (if 0 < s.m_programmeStartTime ∧ s.m_programmeStartTime < s.m_programmeEndTime ∧
            s.m_programmeStartTime ≤ s.offset ∧ s.offset ≤ s.m_programmeEndTime then
          s.m_programmeEndTime - s.m_programmeStartTime
        else s.m_defaultProgrammeDuration) ∧
    (0 < s.m_programmeStartTime → s.m_programmeStartTime < s.m_programmeEndTime →
      s.offset = s.m_programmeEndTime →
      s.programmeDuration = s.m_programmeEndTime - s.m_programmeStartTime) ∧
    GetUpdatedCatchupUrl strftime s timeNow dateTimeNow
      = returnedUrl s (FormatDateTime strftime dateTimeNow (s.offset - s.m_timezoneShift)
          (if s.offset + s.programmeDuration > timeNow then timeNow - s.offset
            else s.programmeDuration)
          (s.selectedFormat timeNow)) := by
  refine ⟨rfl, ?_, GetUpdatedCatchupUrl_catchup strftime s timeNow dateTimeNow hstart hedge⟩
  intro h1 h2 h3
  unfold programmeDuration
  rw [if_pos ⟨h1, h2, by omega, by omega⟩]

/-- C15, witness: the stream whose playback point is the end of its programme, at the instant
5000. -/
theorem programme_duration_selection_witness :
    programmeEndStream.programmeDuration = 500 ∧
    programmeEndStream.programmeDuration
      = (if 0 < programmeEndStream.m_programmeStartTime ∧
            programmeEndStream.m_programmeStartTime < programmeEndStream.m_programmeEndTime ∧
            programmeEndStream.m_programmeStartTime ≤ programmeEndStream.offset ∧
            programmeEndStream.offset ≤ programmeEndStream.m_programmeEndTime then
          programmeEndStream.m_programmeEndTime - programmeEndStream.m_programmeStartTime
        else programmeEndStream.m_defaultProgrammeDuration) :=
  ⟨by decide,
    (programme_duration_selection sampleStrftime programmeEndStream 5000 5000 (by decide)
      (by decide)).1⟩

/-- C15, counterexample: the offset 2000 is the end of the programme that runs from 1500 to
2000, so it is not in the half-open interval; the duration chosen is the 500 seconds of the
programme, not the default 60, and the format `{duration}` is rendered as `500`. And for a
programme that runs from 0 to 3000, whose half-open interval contains the offset 2000, the
duration chosen is the default 60, not 3000. -/
theorem programme_duration_counterexample :
    0 < programmeEndStream.m_catchupBufferStartTime ∧ programmeEndStream.offset < 5000 - 5 ∧
    programmeEndStream.offset = programmeEndStream.m_programmeEndTime ∧
    ¬ (programmeEndStream.m_programmeStartTime ≤ programmeEndStream.offset ∧
        programmeEndStream.offset < programmeEndStream.m_programmeEndTime) ∧
    programmeEndStream.m_defaultProgrammeDuration = 60 ∧
    programmeEndStream.programmeDuration = 500 ∧
    GetUpdatedCatchupUrl sampleStrftime programmeEndStream 5000 5000 = .ok "500".toList ∧
    (({ programmeEndStream with m_programmeStartTime := 0, m_programmeEndTime := 3000 } :
          FFmpegCatchupStream).m_programmeStartTime
        ≤ ({ programmeEndStream with m_programmeStartTime := 0, m_programmeEndTime := 3000 } :
          FFmpegCatchupStream).offset ∧
      ({ programmeEndStream with m_programmeStartTime := 0, m_programmeEndTime := 3000 } :
          FFmpegCatchupStream).offset
        < ({ programmeEndStream with m_programmeStartTime := 0, m_programmeEndTime := 3000 } :
          FFmpegCatchupStream).m_programmeEndTime) ∧
    ({ programmeEndStream with m_programmeStartTime := 0, m_programmeEndTime := 3000 } :
      FFmpegCatchupStream).programmeDuration = 60 := by
  decide!

/-! ## C16: the cap of the duration -/

/-- C16. Duration clamp: in the catch-up branch the duration that `GetUpdatedCatchupUrl` passes
to `FormatDateTime` satisfies `offset + duration <= now`; it is the selected duration when
`offset + selected <= now`, and `now - offset`, which is more than 5, otherwise. -/
theorem duration_clamp (strftime : Char → Int → Str) (s : FFmpegCatchupStream)
    (timeNow dateTimeNow : Int) (hstart : 0 < s.m_catchupBufferStartTime)
    (hedge : s.offset < timeNow - 5) :
    GetUpdatedCatchupUrl strftime s timeNow dateTimeNow
      = returnedUrl s (FormatDateTime strftime dateTimeNow (s.offset - s.m_timezoneShift)
          (s.cappedDuration timeNow) (s.selectedFormat timeNow)) ∧
    s.offset + s.cappedDuration timeNow ≤ timeNow ∧
    (s.offset + s.programmeDuration ≤ timeNow → s.cappedDuration timeNow = s.programmeDuration) ∧
    (¬ s.offset + s.programmeDuration ≤ timeNow →
      s.cappedDuration timeNow = timeNow - s.offset ∧ 5 < timeNow - s.offset) := by
  refine ⟨GetUpdatedCatchupUrl_catchup strftime s timeNow dateTimeNow hstart hedge, ?_, ?_, ?_⟩
  · unfold cappedDuration
    split <;> omega
  · intro h
    unfold cappedDuration
    rw [if_neg (by omega)]
  · intro h
    unfold cappedDuration
    rw [if_pos (by omega)]
    exact ⟨rfl, by omega⟩

/-- C16, witness: the playing stream at the instant 102100, where the default duration 7200 is
capped to the 300 seconds up to now. -/
theorem duration_clamp_witness :
    playingStream.cappedDuration 102100 = 300 ∧
    playingStream.offset + playingStream.cappedDuration 102100 ≤ 102100 :=
  ⟨by decide,
    (duration_clamp sampleStrftime playingStream 102100 102100 (by decide) (by decide)).2.1⟩

/-! ## C17: the isolation of the placeholders -/

/-- C17, at the failing input: with duration 60 the format `{duration:60}{duration}` is rendered
as `160}60`, not as `160`: `{duration}` is replaced first, and the text of the scaled
placeholder is then cut at the first `60`. The format `{duration}{duration:60}` is rendered as
`601`, as expected, but with duration 120 and `C = 0` the format `{duration}{duration:60}0` is
rendered as `12020}0`, not as `12020`. -/
theorem placeholder_isolation_cut_short :
    FormatDateTime sampleStrftime 5000 1000 60 "{duration:60}{duration}".toList
      = .ok "160\x7d60".toList ∧
    ([] : Str) ++ to_string (60 / 60) ++ [] ++ to_string 60 ++ [] = "160".toList ∧
    FormatDateTime sampleStrftime 5000 1000 60 "{duration}{duration:60}".toList
      = .ok "601".toList ∧
    FormatDateTime sampleStrftime 5000 1000 120 "{duration}{duration:60}0".toList
      = .ok "12020\x7d0".toList ∧
    to_string 120 ++ to_string (120 / 60) ++ "0".toList = "12020".toList := by
  decide!

/-! ## C18: what `Open` does -/

/-- C19, as amended. Packet timestamp shift: when the pipeline delivers a packet, `DemuxRead`
returns it with the seek offset added to `pts` and to `dts`, each sum rounded to a `double`,
the current demux time becomes the `double` nearest to the new `pts` divided by 1000, and no
other member of the stream changes. When `pts`, `dts` and the seek offset are whole numbers and
both sums are at most `2^53` in magnitude, the sums are exact, so `dts - pts` is as before. When
the pipeline delivers no packet, `DemuxRead` returns none and the stream is as it was.
`UpdateCurrentPTS` adds the seek offset, rounded to a `double`, to the position that the
pipeline reports, unless that position is `DVD_NOPTS_VALUE`, which stays. -/
theorem demux_read_shifts_timestamps {σ : Type} (pl : Pipeline σ) (s : FFmpegCatchupStream)
    (p : σ) :
    (∀ (p1 : σ) (pPacket : DemuxPacket), pl.DemuxRead p = (p1, some pPacket) →
      DemuxRead pl s p
        = ({ s with
              m_currentDemuxTime := double_div (double_add pPacket.pts s.m_seekOffset) 1000 },
            p1,
            some { pPacket with
              pts := double_add pPacket.pts s.m_seekOffset
              dts := double_add pPacket.dts s.m_seekOffset }) ∧
      ∀ a b c : Int, pPacket.pts = (a : ℚ) → pPacket.dts = (b : ℚ) → s.m_seekOffset = (c : ℚ) →
        (a + c).natAbs ≤ 2 ^ 53 → (b + c).natAbs ≤ 2 ^ 53 →
        double_add pPacket.pts s.m_seekOffset = pPacket.pts + s.m_seekOffset ∧
        double_add pPacket.dts s.m_seekOffset = pPacket.dts + s.m_seekOffset ∧
        double_add pPacket.dts s.m_seekOffset - double_add pPacket.pts s.m_seekOffset
          = pPacket.dts - pPacket.pts) ∧
    (∀ p1 : σ, pl.DemuxRead p = (p1, none) → DemuxRead pl s p = (s, p1, none)) ∧
    UpdateCurrentPTS pl s p
      = ({ s with
            m_currentPts :=
              if (pl.UpdateCurrentPTS p).2 = DVD_NOPTS_VALUE then DVD_NOPTS_VALUE
              else double_add (pl.UpdateCurrentPTS p).2 s.m_seekOffset },
          (pl.UpdateCurrentPTS p).1) := by
  refine ⟨?_, ?_, ?_⟩
  · intro p1 pPacket h
    constructor
    · unfold DemuxRead
      rw [h]
    · intro a b c ha hb hc hac hbc
      have h1 : double_add pPacket.pts s.m_seekOffset = pPacket.pts + s.m_seekOffset := by
        rw [ha, hc, double_add_intCast a c hac, Int.cast_add]
      have h2 : double_add pPacket.dts s.m_seekOffset = pPacket.dts + s.m_seekOffset := by
        rw [hb, hc, double_add_intCast b c hbc, Int.cast_add]
      refine ⟨h1, h2, ?_⟩
      rw [h1, h2]
      ring
  · intro p1 h
    unfold DemuxRead
    rw [h]
  · unfold UpdateCurrentPTS
    by_cases h : (pl.UpdateCurrentPTS p).2 = DVD_NOPTS_VALUE
    · simp [h]
    · simp [h]

/-- C19, witness: the first packet of the playing pipeline, at 5 seconds, read through the
playing stream, whose seek offset is 1800 seconds. -/
theorem demux_read_shifts_timestamps_witness :
    DemuxRead samplePipeline playingStream playingPipeline
      = ({ playingStream with
            m_currentDemuxTime :=
              double_div (double_add 5000000 playingStream.m_seekOffset) 1000 },
          { playingPipeline with queue := [⟨120, 0, 6000000, 5990000, 40000⟩] },
          some ⟨100, 0, double_add 5000000 playingStream.m_seekOffset,
            double_add 4990000 playingStream.m_seekOffset, 40000⟩) ∧
    double_add 5000000 playingStream.m_seekOffset = 5000000 + playingStream.m_seekOffset ∧
    double_add 5000000 playingStream.m_seekOffset = 1805000000 ∧
    double_div (double_add 5000000 playingStream.m_seekOffset) 1000 = 1805000 ∧
    DemuxRead samplePipeline playingStream { playingPipeline with queue := [] }
      = (playingStream, { playingPipeline with queue := [] }, none) :=
  ⟨((demux_read_shifts_timestamps samplePipeline playingStream playingPipeline).1
      { playingPipeline with queue := [⟨120, 0, 6000000, 5990000, 40000⟩] }
      ⟨100, 0, 5000000, 4990000, 40000⟩ rfl).1,
    (((demux_read_shifts_timestamps samplePipeline playingStream playingPipeline).1
      { playingPipeline with queue := [⟨120, 0, 6000000, 5990000, 40000⟩] }
      ⟨100, 0, 5000000, 4990000, 40000⟩ rfl).2 5000000 4990000 1800000000
      (by norm_num) (by norm_num) (by norm_num [playingStream]) (by decide) (by decide)).1,
    by decide!, by decide!,
    (demux_read_shifts_timestamps samplePipeline playingStream
      { playingPipeline with queue := [] }).2.1 { playingPipeline with queue := [] } rfl⟩

/-- C19, counterexample: a packet with `pts = 5000001` read through the playing stream, whose
seek offset is 1800000000, sets the current demux time to the `double` nearest to
1805000.001, which is `7752415973574967 / 2^32` and not `1805000001 / 1000`. And with the seek
offset `2^53` a packet with `pts = 1` and `dts = 0` is returned with `pts = dts = 2^53`: the
difference `dts - pts` is 0 and not `-1`. -/
theorem demux_read_rounding_counterexample :
    (DemuxRead samplePipeline playingStream
        { playingPipeline with queue := [⟨100, 0, 5000001, 4990000, 40000⟩] }).1.m_currentDemuxTime
      = 7752415973574967 / 4294967296 ∧
    (DemuxRead samplePipeline playingStream
        { playingPipeline with queue := [⟨100, 0, 5000001, 4990000, 40000⟩] }).1.m_currentDemuxTime
      ≠ (5000001 + playingStream.m_seekOffset) / 1000 ∧
    (DemuxRead samplePipeline { playingStream with m_seekOffset := 9007199254740992 }
        { playingPipeline with queue := [⟨100, 0, 1, 0, 40000⟩] }).2.2
      = some ⟨100, 0, 9007199254740992, 9007199254740992, 40000⟩ ∧
    (9007199254740992 : ℚ) - 9007199254740992 ≠ 0 - 1 := by
  refine ⟨by decide!, by decide!, by decide!, by norm_num⟩

/-! ## C20: no seek lands in the last 10 seconds -/

/-- C20, as amended. After an absolute seek with `0 <= timeMs < 2^63` (the requests that the
cast to `int64_t` can hold) in catch-up mode, the absolute
time `bufferStartTime + bufferOffsetSeconds` is either `now` or less than `now - 10`. With the
url evaluated at the same `now`: when the request was clamped, the call stores the default url
and returns `(now - bufferStartTime) * 1000000`, which is `>= 0` when `now >= bufferStartTime`;
when it was not clamped and the format is rendered without an exception, the call stores the
rendered url with the catch-up id substituted, or the default url when that is empty, and
returns the rounded request in ticks, which is `>= 0`. -/
theorem seek_never_in_last_ten_seconds (strftime : Char → Int → Str)
    (s s1 : FFmpegCatchupStream) (now : Int) (timeMs : ℚ)
    (hms : 0 ≤ timeMs) (hhi : timeMs < 2 ^ 63) (hstart : 0 < s.m_catchupBufferStartTime)
    (hs1 : s1 = { s with m_catchupBufferOffset := (⌊timeMs⌋ + 500) / 1000 }) :
    (s.m_catchupBufferStartTime
        + (SeekCatchupStream strftime s now now now timeMs SEEK_SET).1.m_catchupBufferOffset
        = now ∨
      s.m_catchupBufferStartTime
        + (SeekCatchupStream strftime s now now now timeMs SEEK_SET).1.m_catchupBufferOffset
        < now - 10) ∧
    (s.m_catchupBufferStartTime + (⌊timeMs⌋ + 500) / 1000 ≥ now - 10 →
      SeekCatchupStream strftime s now now now timeMs SEEK_SET
        = ({ s with
              m_catchupBufferOffset := now - s.m_catchupBufferStartTime
              m_streamUrl := s.m_defaultUrl },
            .ok ((now - s.m_catchupBufferStartTime) * DVD_TIME_BASE)) ∧
      (s.m_catchupBufferStartTime ≤ now →
        0 ≤ (now - s.m_catchupBufferStartTime) * DVD_TIME_BASE)) ∧
    (s.m_catchupBufferStartTime + (⌊timeMs⌋ + 500) / 1000 < now - 10 →
      ∀ formatted : Str,
        FormatDateTime strftime now (s1.offset - s1.m_timezoneShift) (s1.cappedDuration now)
          (s1.selectedFormat now) = .ok formatted →
        SeekCatchupStream strftime s now now now timeMs SEEK_SET
          = ({ s1 with
                m_streamUrl :=
                  if s1.substituteCatchupId formatted = [] then s1.m_defaultUrl
                  else s1.substituteCatchupId formatted },
              .ok ((⌊timeMs⌋ + 500) / 1000 * DVD_TIME_BASE)) ∧
        0 ≤ (⌊timeMs⌋ + 500) / 1000 * DVD_TIME_BASE) := by
  have hstored := (seek_set_stored strftime s now now now timeMs hstart).2
  rw [seek_position_of_nonneg timeMs hms hhi] at hstored
  have hfloor : (0 : Int) ≤ ⌊timeMs⌋ := Int.floor_nonneg.mpr hms
  refine ⟨?_, ?_, ?_⟩
  · rw [hstored]
    split <;> omega
  · intro hclamp
    constructor
    · rw [SeekCatchupStream_set strftime s now now now timeMs hstart
          (now - s.m_catchupBufferStartTime)
          (by rw [seek_position_of_nonneg timeMs hms hhi, if_neg (by omega)]),
        GetUpdatedCatchupUrl_default strftime _ now now
          (Or.inr (by
            show s.m_catchupBufferStartTime + (now - s.m_catchupBufferStartTime) ≥ now - 5
            omega))]
    · intro h
      unfold DVD_TIME_BASE
      omega
  · intro hexact formatted hf
    subst hs1
    constructor
    · rw [SeekCatchupStream_set strftime s now now now timeMs hstart
          ((⌊timeMs⌋ + 500) / 1000)
          (by rw [seek_position_of_nonneg timeMs hms hhi, if_pos hexact]),
        GetUpdatedCatchupUrl_catchup strftime
          { s with m_catchupBufferOffset := (⌊timeMs⌋ + 500) / 1000 } now now hstart
          (by show s.m_catchupBufferStartTime + (⌊timeMs⌋ + 500) / 1000 < now - 5; omega),
        hf]
      unfold returnedUrl
      simp only []
      by_cases hempty : FFmpegCatchupStream.substituteCatchupId
          { s with m_catchupBufferOffset := (⌊timeMs⌋ + 500) / 1000 } formatted = []
      · simp only [if_pos hempty]
      · simp only [if_neg hempty]
    · unfold DVD_TIME_BASE
      omega

/-- C20, witness: the seek scenario at `T = 100000`: the request 1800000 ms at the instant
101900 is not clamped, and the rendered url is stored. -/
theorem seek_never_in_last_ten_seconds_witness :
    (SeekCatchupStream sampleStrftime (scenarioStream plainStream 100000 7200)
        101900 101900 101900 1800000 SEEK_SET).1.m_streamUrl
      = "vod?start=101800&dur=100".toList ∧
    ((scenarioStream plainStream 100000 7200).m_catchupBufferStartTime
        + (SeekCatchupStream sampleStrftime (scenarioStream plainStream 100000 7200)
            101900 101900 101900 1800000 SEEK_SET).1.m_catchupBufferOffset = 101900 ∨
      (scenarioStream plainStream 100000 7200).m_catchupBufferStartTime
        + (SeekCatchupStream sampleStrftime (scenarioStream plainStream 100000 7200)
            101900 101900 101900 1800000 SEEK_SET).1.m_catchupBufferOffset < 101900 - 10) :=
  ⟨by decide!,
    (seek_never_in_last_ten_seconds sampleStrftime (scenarioStream plainStream 100000 7200)
      { scenarioStream plainStream 100000 7200 with
        m_catchupBufferOffset := (⌊(1800000 : ℚ)⌋ + 500) / 1000 }
      101900 1800000 (by norm_num) (by norm_num) (by decide) rfl).1⟩

/-- C20, counterexample: with an empty catch-up format the request 0 ms at the instant 2000 is
not clamped, the rendered format is empty, and the url stored is the default url. And the
request `2^63` ms, which is far after `now`, is not clamped: the cast yields `INT64_MIN`, the
stored offset is `-9223372036854775`, and the url stored is not the default url. -/
theorem seek_stores_default_url_counterexample :
    (0 : ℚ) ≤ 0 ∧ 0 < (catchupIdStream [] []).m_catchupBufferStartTime ∧
    (catchupIdStream [] []).m_catchupBufferStartTime + (⌊(0 : ℚ)⌋ + 500) / 1000 < 2000 - 10 ∧
    (SeekCatchupStream sampleStrftime (catchupIdStream [] []) 2000 2000 2000 0
      SEEK_SET).1.m_catchupBufferOffset = 0 ∧
    FormatDateTime sampleStrftime 2000
        ((catchupIdStream [] []).offset - (catchupIdStream [] []).m_timezoneShift)
        ((catchupIdStream [] []).cappedDuration 2000)
        ((catchupIdStream [] []).selectedFormat 2000) = .ok [] ∧
    (SeekCatchupStream sampleStrftime (catchupIdStream [] []) 2000 2000 2000 0
      SEEK_SET).1.m_streamUrl = (catchupIdStream [] []).m_defaultUrl ∧
    (catchupIdStream [] []).m_defaultUrl ≠ [] ∧
    (scenarioStream plainStream 100000 7200).m_catchupBufferStartTime
        + (⌊(9223372036854775808 : ℚ)⌋ + 500) / 1000 ≥ 101900 - 10 ∧
    (SeekCatchupStream sampleStrftime (scenarioStream plainStream 100000 7200)
        101900 101900 101900 9223372036854775808 SEEK_SET).1.m_catchupBufferOffset
      = -9223372036854775 ∧
    (SeekCatchupStream sampleStrftime (scenarioStream plainStream 100000 7200)
        101900 101900 101900 9223372036854775808 SEEK_SET).1.m_streamUrl
      ≠ (scenarioStream plainStream 100000 7200).m_defaultUrl := by
  refine ⟨le_refl 0, by decide, ?_, by decide!, by decide!, by decide!, by decide, ?_,
    by decide!, by decide!⟩
  · rw [Int.floor_zero]
    decide
  · rw [show ⌊(9223372036854775808 : ℚ)⌋ = 9223372036854775808
      from Int.floor_natCast 9223372036854775808]
    decide

end ffmpegdirect
